import Mathlib

/-! A shallow embedding of the calendar client `calendar.js`.

The client script `src/main/resources/static/calendar.js` is embedded function
by function.  The script leans on the host's `Date` object, so the first part
of this file embeds the date arithmetic of ECMAScript (ECMA-262, section
"Date Objects"): a time value is an integer number of milliseconds since the
epoch, or `NaN`.

Conventions:

* A JavaScript number that is either an integer or `NaN` is an `Option Int`
  (`none` is `NaN`).
* A `Date` object is its time value (`JSDate.tv`), `none` for `Invalid Date`.
* The host environment is a record `Host`: the local time zone adjustment
  (a constant offset in milliseconds; daylight-saving transitions are outside
  the model), the implementation-defined fallback of `Date.parse` for strings
  outside the ECMAScript date-time format, the current time, and the
  lower-case mapping of strings.
* An asynchronous function is embedded as one transition of the client state,
  given the outcome of each request it awaits; it returns the new state and
  the requests it issued, in order.  Handlers that run between two awaits of
  another handler are outside the model.
* Embedded: the utility functions, calendar rendering, events list rendering,
  modal management and entries management.  Not embedded: the wiring of event
  listeners, the configuration (`loadConfig`, `toggleDarkMode`) and import and
  export, which no theorem below is about.
-/

namespace Calendar

/-! ## ECMAScript date arithmetic -/

def msPerDay : Int := 86400000
def msPerHour : Int := 3600000
def msPerMinute : Int := 60000
def msPerSecond : Int := 1000

/-- Day number of a time value: `floor(t / msPerDay)`. -/
def Day (t : Int) : Int := t / msPerDay

/-- Milliseconds since the start of the day: `t modulo msPerDay`. -/
def TimeWithinDay (t : Int) : Int := t % msPerDay

/-- Number of days of year `y` in the proleptic Gregorian calendar. -/
def DaysInYear (y : Int) : Int :=
  if y % 4 ≠ 0 then 365
  else if y % 100 ≠ 0 then 366
  else if y % 400 ≠ 0 then 365
  else 366

/-- Day number of the first day of year `y`. -/
def DayFromYear (y : Int) : Int :=
  365 * (y - 1970) + (y - 1969) / 4 - (y - 1901) / 100 + (y - 1601) / 400

def TimeFromYear (y : Int) : Int := msPerDay * DayFromYear y

/-- The largest year `y` with `TimeFromYear y ≤ t`.  ECMAScript states it
declaratively; here the mean-year estimate is corrected by at most one year
(`YearFromTime_spec` and `YearFromTime_largest` show this is that year). -/
def YearFromTime (t : Int) : Int :=
  let d := Day t
  let y := 1970 + (d * 400) / 146097
  if DayFromYear (y + 1) ≤ d then y + 1
  else if DayFromYear y ≤ d then y
  else y - 1

def InLeapYear (t : Int) : Int :=
  if DaysInYear (YearFromTime t) = 366 then 1 else 0

def DayWithinYear (t : Int) : Int := Day t - DayFromYear (YearFromTime t)

/-- Month number (0 = January) of a time value, by the table of ECMA-262. -/
def MonthFromTime (t : Int) : Int :=
  let d := DayWithinYear t
  let leap := InLeapYear t
  if d < 31 then 0
  else if d < 59 + leap then 1
  else if d < 90 + leap then 2
  else if d < 120 + leap then 3
  else if d < 151 + leap then 4
  else if d < 181 + leap then 5
  else if d < 212 + leap then 6
  else if d < 243 + leap then 7
  else if d < 273 + leap then 8
  else if d < 304 + leap then 9
  else if d < 334 + leap then 10
  else 11

/-- Day of the month (1-based) of a time value, by the table of ECMA-262. -/
def DateFromTime (t : Int) : Int :=
  let d := DayWithinYear t
  let leap := InLeapYear t
  let m := MonthFromTime t
  if m = 0 then d + 1
  else if m = 1 then d - 30
  else if m = 2 then d - 58 - leap
  else if m = 3 then d - 89 - leap
  else if m = 4 then d - 119 - leap
  else if m = 5 then d - 150 - leap
  else if m = 6 then d - 180 - leap
  else if m = 7 then d - 211 - leap
  else if m = 8 then d - 242 - leap
  else if m = 9 then d - 272 - leap
  else if m = 10 then d - 303 - leap
  else d - 333 - leap

/-- Day of the week, 0 = Sunday. -/
def WeekDay (t : Int) : Int := (Day t + 4) % 7

def HourFromTime (t : Int) : Int := (t / msPerHour) % 24
def MinFromTime (t : Int) : Int := (t / msPerMinute) % 60
def SecFromTime (t : Int) : Int := (t / msPerSecond) % 60
def msFromTime (t : Int) : Int := t % msPerSecond

def MakeTime (hour min sec ms : Int) : Int :=
  hour * msPerHour + min * msPerMinute + sec * msPerSecond + ms

/-- Days from the start of a year to the start of month `mn` (0 = January);
`leap` is 1 in a leap year and 0 otherwise. -/
def daysBeforeMonth (mn leap : Int) : Int :=
  if mn = 0 then 0
  else if mn = 1 then 31
  else if mn = 2 then 59 + leap
  else if mn = 3 then 90 + leap
  else if mn = 4 then 120 + leap
  else if mn = 5 then 151 + leap
  else if mn = 6 then 181 + leap
  else if mn = 7 then 212 + leap
  else if mn = 8 then 243 + leap
  else if mn = 9 then 273 + leap
  else if mn = 10 then 304 + leap
  else 334 + leap

/-- Day number of the given year, month (0-based, any integer) and date.
ECMAScript asks for a time value `t` in year `ym`, month `mn`, date 1 and
returns `Day t + date - 1`; the day of that `t` is computed here
(`MakeDay_first` shows it has these three fields). -/
def MakeDay (year month date : Int) : Int :=
  let ym := year + month / 12
  let mn := month % 12
  let leap : Int := if DaysInYear ym = 366 then 1 else 0
  DayFromYear ym + daysBeforeMonth mn leap + date - 1

def MakeDate (day time : Int) : Int := day * msPerDay + time

/-- The time value, or `NaN` when its magnitude exceeds 8.64e15. -/
def TimeClip (t : Int) : Option Int :=
  if t < -8640000000000000 ∨ 8640000000000000 < t then none else some t

/-- Length of month `m` (0 = January) of year `y` in the proleptic Gregorian
calendar: the reference the grid is compared with. -/
def monthLength (y m : Int) : Int :=
  if m = 1 then
    if y % 4 = 0 ∧ (y % 100 ≠ 0 ∨ y % 400 = 0) then 29 else 28
  else if m = 3 ∨ m = 5 ∨ m = 8 ∨ m = 10 then 30
  else 31

/-! ## The host and its `Date` objects -/

/-- The host environment of the script. -/
structure Host where
  /-- Local time zone adjustment in milliseconds (local = UTC + `tza`). -/
  tza : Int
  /-- What `Date.parse` returns for a string outside the ECMAScript date-time
  string format (implementation-defined); `none` is `NaN`. -/
  legacy : String → Option Int
  /-- Time value of the current instant. -/
  now : Int
  /-- Method `toLowerCase()` of a string (it follows the Unicode case
  mapping of the host). -/
  toLowerCase : String → String

/-- A `Date` object: its time value, `none` for `Invalid Date`. -/
structure JSDate where
  tv : Option Int
deriving DecidableEq, Repr

def LocalTime (h : Host) (t : Int) : Int := t + h.tza
def UTC (h : Host) (t : Int) : Int := t - h.tza

def getFullYear (h : Host) (d : JSDate) : Option Int :=
  d.tv.map fun t => YearFromTime (LocalTime h t)
def getMonth (h : Host) (d : JSDate) : Option Int :=
  d.tv.map fun t => MonthFromTime (LocalTime h t)
def getDate (h : Host) (d : JSDate) : Option Int :=
  d.tv.map fun t => DateFromTime (LocalTime h t)
def getDay (h : Host) (d : JSDate) : Option Int :=
  d.tv.map fun t => WeekDay (LocalTime h t)
def getHours (h : Host) (d : JSDate) : Option Int :=
  d.tv.map fun t => HourFromTime (LocalTime h t)
def getMinutes (h : Host) (d : JSDate) : Option Int :=
  d.tv.map fun t => MinFromTime (LocalTime h t)

/-- Strict equality `===` of two numbers: `NaN` equals nothing. -/
def strictEq (a b : Option Int) : Bool :=
  match a, b with
  | some x, some y => x == y
  | _, _ => false

/-- The sum `a + b` of two numbers. -/
def jsAdd (a b : Option Int) : Option Int :=
  match a, b with
  | some x, some y => some (x + y)
  | _, _ => none

/-- The difference `a - b` of two numbers. -/
def jsSub (a b : Option Int) : Option Int :=
  match a, b with
  | some x, some y => some (x - y)
  | _, _ => none

/-- Call `new Date()`: the current instant. -/
def newDateNow (h : Host) : JSDate := ⟨TimeClip h.now⟩

/-- Call `new Date(year, month, date)`: local midnight of that day; a year from 0
to 99 stands for 1900 + year. -/
def newDateYMD (h : Host) (year month date : Option Int) : JSDate :=
  match year, month, date with
  | some y, some m, some dt =>
    let yr := if 0 ≤ y ∧ y ≤ 99 then 1900 + y else y
    ⟨TimeClip (UTC h (MakeDate (MakeDay yr m dt) (MakeTime 0 0 0 0)))⟩
  | _, _, _ => ⟨none⟩

/-! ## `Date.parse`: the ECMAScript date-time string format -/

def digitVal (c : Char) : Option Int :=
  if 48 ≤ c.toNat ∧ c.toNat ≤ 57 then some (Int.ofNat (c.toNat - 48)) else none

def num2 (a b : Char) : Option Int := do
  let x ← digitVal a
  let y ← digitVal b
  pure (10 * x + y)

def num3 (a b c : Char) : Option Int := do
  let x ← num2 a b
  let y ← digitVal c
  pure (10 * x + y)

def num4 (a b c d : Char) : Option Int := do
  let x ← num2 a b
  let y ← num2 c d
  pure (100 * x + y)

def num6 (a b c d e f : Char) : Option Int := do
  let x ← num4 a b c d
  let y ← num2 e f
  pure (100 * x + y)

/-- The fields read from a string in the date-time format, before any range
check.  `time` (hour, minute, second, millisecond) is absent in a date-only
form; `offset` (sign, hours, minutes; sign is 1 east of UTC and -1 west) is
absent when the string has none. -/
structure IsoFields where
  year : Int
  month : Int
  day : Int
  time : Option (Int × Int × Int × Int)
  offset : Option (Int × Int × Int)
deriving DecidableEq, Repr

/-- Year: `YYYY`, or a sign and six digits (`-000000` is not a year). -/
def parseYear : List Char → Option (Int × List Char)
  | c :: r =>
    if c = '+' then
      match r with
      | a :: b :: c1 :: d :: e :: f :: r1 => (num6 a b c1 d e f).map fun n => (n, r1)
      | _ => none
    else if c = '-' then
      match r with
      | a :: b :: c1 :: d :: e :: f :: r1 =>
        (num6 a b c1 d e f).bind fun n => if n = 0 then none else some (-n, r1)
      | _ => none
    else
      match r with
      | b :: c1 :: d :: r1 => (num4 c b c1 d).map fun n => (n, r1)
      | _ => none
  | [] => none

/-- An optional `-NN` group: the number (or `dflt` when the group is absent)
and the rest. -/
def parseDashNum (dflt : Int) : List Char → Option (Int × List Char)
  | c :: a :: b :: r =>
    if c = '-' then (num2 a b).map fun n => (n, r) else some (dflt, c :: a :: b :: r)
  | r => some (dflt, r)

/-- Date part: `YYYY`, `YYYY-MM` or `YYYY-MM-DD`. -/
def parseDatePart (s : List Char) : Option ((Int × Int × Int) × List Char) := do
  let (y, r) ← parseYear s
  match r with
  | c :: _ =>
    if c = '-' then do
      let (m, r1) ← parseDashNum 1 r
      match r1 with
      | c1 :: _ =>
        if c1 = '-' then do
          let (d, r2) ← parseDashNum 1 r1
          pure ((y, m, d), r2)
        else pure ((y, m, 1), r1)
      | [] => pure ((y, m, 1), r1)
    else pure ((y, 1, 1), r)
  | [] => pure ((y, 1, 1), r)

/-- Optional `.sss` after the seconds. -/
def parseMillis : List Char → Option (Int × List Char)
  | c :: a :: b :: d :: r =>
    if c = '.' then (num3 a b d).map fun n => (n, r) else some (0, c :: a :: b :: d :: r)
  | r => some (0, r)

/-- Optional `:ss` and `.sss` after the minutes. -/
def parseSeconds : List Char → Option ((Int × Int) × List Char)
  | c :: a :: b :: r =>
    if c = ':' then do
      let s ← num2 a b
      let (ms, r1) ← parseMillis r
      pure ((s, ms), r1)
    else some ((0, 0), c :: a :: b :: r)
  | r => some ((0, 0), r)

/-- UTC offset: nothing, `Z`, or a sign and `HH:mm`. -/
def parseOffset : List Char → Option (Option (Int × Int × Int))
  | [] => some none
  | [c] => if c = 'Z' then some (some (1, 0, 0)) else none
  | [c, a, b, c1, d, e] =>
    if c1 = ':' then do
      let hh ← num2 a b
      let mm ← num2 d e
      if c = '+' then pure (some (1, hh, mm))
      else if c = '-' then pure (some (-1, hh, mm))
      else none
    else none
  | _ => none

/-- Time part after the date: `THH:mm`, then optional seconds, milliseconds
and offset. -/
def parseTimePart :
    List Char → Option ((Int × Int × Int × Int) × Option (Int × Int × Int))
  | c :: a :: b :: c1 :: d :: e :: r =>
    if c = 'T' ∧ c1 = ':' then do
      let hh ← num2 a b
      let mm ← num2 d e
      let ((s, ms), r1) ← parseSeconds r
      let off ← parseOffset r1
      pure ((hh, mm, s, ms), off)
    else none
  | _ => none

/-- Syntax of the date-time string format; `none` when the string is not in
the format. -/
def parseIsoFields (s : List Char) : Option IsoFields := do
  let ((y, m, d), r) ← parseDatePart s
  match r with
  | [] => pure ⟨y, m, d, none, none⟩
  | _ => do
    let (t, off) ← parseTimePart r
    pure ⟨y, m, d, some t, off⟩

/-- Whether every field is in the bounds of the format: month 01-12, day
01-31, hour 00-24 (24 only as `24:00:00.000`), minute and second 00-59,
offset hours 00-23 and minutes 00-59. -/
def IsoFields.inBounds (f : IsoFields) : Bool :=
  decide (1 ≤ f.month ∧ f.month ≤ 12 ∧ 1 ≤ f.day ∧ f.day ≤ 31) &&
  (match f.time with
   | none => true
   | some (hh, mm, s, ms) =>
     decide (mm ≤ 59 ∧ s ≤ 59 ∧ (hh ≤ 23 ∨ (hh = 24 ∧ mm = 0 ∧ s = 0 ∧ ms = 0)))) &&
  (match f.offset with
   | none => true
   | some (_, oh, om) => decide (oh ≤ 23 ∧ om ≤ 59))

/-- Time value of the fields: a date-only form is UTC, a date-time form
without offset is local time. -/
def IsoFields.timeValue (h : Host) (f : IsoFields) : Option Int :=
  if f.inBounds then
    let day := MakeDay f.year (f.month - 1) f.day
    match f.time with
    | none => TimeClip (MakeDate day 0)
    | some (hh, mm, s, ms) =>
      let t := MakeDate day (MakeTime hh mm s ms)
      match f.offset with
      | none => TimeClip (UTC h t)
      | some (sign, oh, om) => TimeClip (t - sign * (oh * msPerHour + om * msPerMinute))
  else none

/-- Function `Date.parse`. -/
def dateParse (h : Host) (s : String) : Option Int :=
  match parseIsoFields s.data with
  | some f => f.timeValue h
  | none => (h.legacy s).bind TimeClip

/-- Call `new Date(string)`. -/
def newDateString (h : Host) (s : String) : JSDate := ⟨dateParse h s⟩

/-! ## Numbers and strings -/

/-- String of a number (`toString`, or interpolation in a template). -/
def numToString : Option Int → String
  | some n => toString n
  | none => "NaN"

/-- Method `padStart(n, c)` with a one-character pad. -/
def padStart (s : String) (n : Nat) (c : Char) : String :=
  ⟨List.replicate (n - s.length) c ++ s.data⟩

/-- White space and line terminators of ECMAScript (what `trim()` strips and
`\s` matches), by code point: tab, line feed, vertical tab, form feed,
carriage return, space, no-break space, U+1680, U+2000 to U+200A, U+2028,
U+2029, U+202F, U+205F, U+3000 and U+FEFF. -/
def isSpace (c : Char) : Bool :=
  c.toNat = 9 || c.toNat = 10 || c.toNat = 11 || c.toNat = 12 || c.toNat = 13 ||
    c.toNat = 32 || c.toNat = 160 || c.toNat = 5760 ||
    (8192 ≤ c.toNat && c.toNat ≤ 8202) || c.toNat = 8232 || c.toNat = 8233 ||
    c.toNat = 8239 || c.toNat = 8287 || c.toNat = 12288 || c.toNat = 65279

/-- Method `trim()`. -/
def trim (s : String) : String :=
  ⟨((s.data.dropWhile isSpace).reverse.dropWhile isSpace).reverse⟩

/-- Replace each run of white space by one `-` (`replace(/\s+/g, '-')`). -/
def dashSpaces : List Char → List Char
  | [] => []
  | c :: r =>
    if isSpace c then '-' :: dashSpaces (r.dropWhile isSpace)
    else c :: dashSpaces r
termination_by l => l.length
decreasing_by
  all_goals simp_wf
  · exact Nat.lt_succ_of_le (List.dropWhile_sublist _).length_le

/-- Function `escapeHtml`: the text as the markup of a text node. -/
def escapeHtml (text : String) : String :=
  ⟨text.data.flatMap fun c =>
    if c = '&' then "&amp;".data
    else if c = '<' then "&lt;".data
    else if c = '>' then "&gt;".data
    else if c.toNat = 160 then "&nbsp;".data
    else [c]⟩

/-- Value of a character as a digit of the given radix. -/
def digitOfRadix (radix : Nat) (c : Char) : Option Nat :=
  let v : Option Nat :=
    if 48 ≤ c.toNat ∧ c.toNat ≤ 57 then some (c.toNat - 48)
    else if 97 ≤ c.toNat ∧ c.toNat ≤ 122 then some (c.toNat - 87)
    else if 65 ≤ c.toNat ∧ c.toNat ≤ 90 then some (c.toNat - 55)
    else none
  v.filter fun d => decide (d < radix)

/-- The double nearest to a natural number (ties to even), as an integer;
`none` when it is infinity. -/
def roundToDouble (n : Nat) : Option Nat :=
  let bits := if n = 0 then 0 else Nat.log2 n + 1
  if bits ≤ 53 then some n
  else
    let shift := bits - 53
    let q := n / 2 ^ shift
    let rest := n % 2 ^ shift
    let half := 2 ^ (shift - 1)
    let q := if half < rest ∨ (rest = half ∧ q % 2 = 1) then q + 1 else q
    if 2 ^ 1024 ≤ q * 2 ^ shift then none else some (q * 2 ^ shift)

/-- Function `parseInt(s)` without a radix: optional white space and sign,
an optional `0x` or `0X` that selects radix 16, then the longest run of
digits, as a double; `NaN` without a digit.  Infinity is `none` as well: the
value only goes into the JSON body, where both are written `null`. -/
def parseInt (s : String) : Option Int :=
  let r := s.data.dropWhile isSpace
  let (neg, r) := match r with
    | c :: r1 => if c = '-' then (true, r1) else if c = '+' then (false, r1) else (false, r)
    | [] => (false, r)
  let (radix, r) := match r with
    | a :: b :: r1 => if a = '0' ∧ (b = 'x' ∨ b = 'X') then (16, r1) else (10, r)
    | _ => (10, r)
  let ds := r.takeWhile fun c => (digitOfRadix radix c).isSome
  if ds.isEmpty then none
  else
    let n : Nat := ds.foldl (fun acc c => radix * acc + (digitOfRadix radix c).getD 0) 0
    (roundToDouble n).map fun v => if neg then -Int.ofNat v else Int.ofNat v

/-! ## calendar.js: utility functions -/

def API_BASE : String := "/api/calendar"

def formatDate (h : Host) (date : JSDate) : String :=
  let day := padStart (numToString (getDate h date)) 2 '0'
  let month := padStart (numToString (jsAdd (getMonth h date) (some 1))) 2 '0'
  let year := getFullYear h date
  day ++ "." ++ month ++ "." ++ numToString year

def formatTime (h : Host) (date : JSDate) : String :=
  let hours := padStart (numToString (getHours h date)) 2 '0'
  let minutes := padStart (numToString (getMinutes h date)) 2 '0'
  hours ++ ":" ++ minutes

def formatDateInput (h : Host) (date : JSDate) : String :=
  let year := getFullYear h date
  let month := padStart (numToString (jsAdd (getMonth h date) (some 1))) 2 '0'
  let day := padStart (numToString (getDate h date)) 2 '0'
  numToString year ++ "-" ++ month ++ "-" ++ day

def formatTimeInput (h : Host) (date : JSDate) : String :=
  let hours := padStart (numToString (getHours h date)) 2 '0'
  let minutes := padStart (numToString (getMinutes h date)) 2 '0'
  hours ++ ":" ++ minutes

/-! ## calendar.js: state -/

/-- An entry as the backend sends it (`end` is named `end_` here). -/
structure Entry where
  title : String
  description : Option String
  start : String
  end_ : String
  category : Option String
  reminderMinutesBefore : Option Int
deriving DecidableEq, Repr

/-- Values of the inputs of the entry form. -/
structure Form where
  entryTitle : String
  entryDescription : String
  entryStartDate : String
  entryStartTime : String
  entryEndDate : String
  entryEndTime : String
  entryCategory : String
  entryReminder : String
deriving DecidableEq, Repr

/-- The form after `reset()`; the inputs are taken to have no default value
(the page is not among the sources). -/
def Form.reset : Form := ⟨"", "", "", "", "", "", "", ""⟩

/-- A child of the `day-events` indicator of a day cell. -/
inductive IndicatorChild where
  | dot
  | text (s : String)
deriving DecidableEq, Repr

/-- The element `createDayElement` returns. -/
structure DayElement where
  classes : List String
  dayNumber : Int
  /-- Children of the `day-events` element, when there is one. -/
  eventsIndicator : Option (List IndicatorChild)
  /-- What the click handler captured. -/
  date : JSDate
  dayEntries : List Entry
deriving DecidableEq, Repr

/-- A child of the calendar grid. -/
inductive Cell where
  | header (name : String)
  | filler
  | day (d : DayElement)
deriving DecidableEq, Repr

/-- The element `createEventItem` returns; `editArg` and `deleteArg` are the
arguments of `editEntry(...)` and `deleteEntry(...)` in its two buttons. -/
structure EventItem where
  entry : Entry
  classes : List String
  title : String
  time : String
  description : Option String
  category : Option String
  reminder : Option String
  editArg : Nat
  deleteArg : Nat
deriving DecidableEq, Repr

/-- Content of the `eventsList` element. -/
inductive EventsList where
  | emptyState
  | items (l : List EventItem)
deriving DecidableEq, Repr

/-- The module state (`currentDate`, `entries`, `editingIndex`, `darkMode`)
and the part of the page the script writes. -/
structure State where
  currentDate : JSDate
  entries : List Entry
  editingIndex : Int
  darkMode : Bool
  /-- Whether `entryModal` has the class `show`. -/
  modalShown : Bool
  modalTitle : String
  form : Form
  statusLabel : String
  currentMonth : String
  calendarGrid : List Cell
  eventsList : EventsList
deriving DecidableEq, Repr

inductive Method where
  | GET | POST | PUT | DELETE
deriving DecidableEq, Repr

/-- A call of `fetch`. -/
structure Request where
  method : Method
  url : String
  body : Option Entry
deriving DecidableEq, Repr

/-- What became of a request: a response with `ok` true, a response with
`ok` false, or a rejected promise. -/
inductive Outcome where
  | ok
  | notOk
  | networkError
deriving DecidableEq, Repr

/-- What became of `GET entries`: as `Outcome`, with the decoded body of a
successful response (`okBadJson` when decoding it throws). -/
inductive LoadOutcome where
  | ok (body : List Entry)
  | okBadJson
  | notOk
  | networkError
deriving DecidableEq, Repr

/-- What a call did besides changing the state. -/
structure Effects where
  requests : List Request
  alerts : List String
  /-- Whether the call ended by an uncaught exception. -/
  threw : Bool
deriving DecidableEq, Repr

def setStatus (s : State) (message : String) : State :=
  { s with statusLabel := message }

/-! ## calendar.js: calendar rendering -/

def getEntriesForDay (h : Host) (entries : List Entry) (date : JSDate) : List Entry :=
  entries.filter fun entry =>
    let startDate := newDateString h entry.start
    strictEq (getFullYear h startDate) (getFullYear h date) &&
    strictEq (getMonth h startDate) (getMonth h date) &&
    strictEq (getDate h startDate) (getDate h date)

def dayAbbrev : List String := ["Sun", "Mon", "Tue", "Wed", "Thu", "Fri", "Sat"]
def monthAbbrev : List String :=
  ["Jan", "Feb", "Mar", "Apr", "May", "Jun", "Jul", "Aug", "Sep", "Oct", "Nov", "Dec"]

/-- Method `toDateString()`. -/
def toDateString (h : Host) (d : JSDate) : String :=
  match d.tv with
  | none => "Invalid Date"
  | some tv =>
    let t := LocalTime h tv
    let yv := YearFromTime t
    dayAbbrev.getD (WeekDay t).toNat "" ++ " " ++
      monthAbbrev.getD (MonthFromTime t).toNat "" ++ " " ++
      padStart (toString (DateFromTime t)) 2 '0' ++ " " ++
      (if 0 ≤ yv then "" else "-") ++ padStart (toString yv.natAbs) 4 '0'

def createDayElement (h : Host) (entries : List Entry) (year month : Option Int) (day : Int) :
    DayElement :=
  let date := newDateYMD h year month (some day)
  let today := newDateNow h
  let classes := ["calendar-day"]
  let classes :=
    if toDateString h date = toDateString h today then classes ++ ["today"] else classes
  let dayEntries := getEntriesForDay h entries date
  let classes := if dayEntries.length > 0 then classes ++ ["has-events"] else classes
  let eventsIndicator :=
    if dayEntries.length > 0 then
      let dots := List.replicate (min dayEntries.length 3) IndicatorChild.dot
      let children :=
        if dayEntries.length > 3 then
          dots ++ [IndicatorChild.text (" +" ++ toString (dayEntries.length - 3))]
        else dots
      some children
    else none
  { classes := classes, dayNumber := day, eventsIndicator := eventsIndicator,
    date := date, dayEntries := dayEntries }

def monthNames : List String :=
  ["Januar", "Februar", "März", "April", "Mai", "Juni",
   "Juli", "August", "September", "Oktober", "November", "Dezember"]

def dayNames : List String := ["So", "Mo", "Di", "Mi", "Do", "Fr", "Sa"]

/-- Number of rounds of `for (let i = 0; i < n; i++)`, and of
`for (let day = 1; day <= n; day++)`; none when `n` is `NaN`. -/
def loopCount (n : Option Int) : Nat :=
  match n with
  | some k => k.toNat
  | none => 0

/-- The children `renderCalendar` appends to the grid for the month of
`currentDate`. -/
def gridCells (h : Host) (entries : List Entry) (currentDate : JSDate) : List Cell :=
  let year := getFullYear h currentDate
  let month := getMonth h currentDate
  let firstDay := newDateYMD h year month (some 1)
  let lastDay := newDateYMD h year (jsAdd month (some 1)) (some 0)
  let daysInMonth := getDate h lastDay
  let startingDayOfWeek := getDay h firstDay
  dayNames.map Cell.header ++
    List.replicate (loopCount startingDayOfWeek) Cell.filler ++
    (List.range (loopCount daysInMonth)).map fun i =>
      Cell.day (createDayElement h entries year month (Int.ofNat i + 1))

def renderCalendar (h : Host) (s : State) : State :=
  let year := getFullYear h s.currentDate
  let month := getMonth h s.currentDate
  let monthName := match month with
    | some m => monthNames.getD m.toNat "undefined"
    | none => "undefined"
  { s with
    currentMonth := monthName ++ " " ++ numToString year
    calendarGrid := gridCells h s.entries s.currentDate }

/-- Method `setMonth(m)` of a date. -/
def setMonth (h : Host) (d : JSDate) (m : Option Int) : JSDate :=
  match d.tv, m with
  | some tv, some m =>
    let t := LocalTime h tv
    let newDate := MakeDate (MakeDay (YearFromTime t) m (DateFromTime t)) (TimeWithinDay t)
    ⟨TimeClip (UTC h newDate)⟩
  | _, _ => ⟨none⟩

def changeMonth (h : Host) (s : State) (delta : Int) : State :=
  let s := { s with
    currentDate := setMonth h s.currentDate (jsAdd (getMonth h s.currentDate) (some delta)) }
  renderCalendar h s

/-! ## calendar.js: events list rendering -/

/-- The comparator of the sort, `new Date(a.start) - new Date(b.start)`. -/
def compareStart (h : Host) (a b : Entry) : Option Int :=
  jsSub (newDateString h a.start).tv (newDateString h b.start).tv

/-- Whether a comparator result lets `a` stay before `b`: it is not positive
(`NaN` counts as zero). -/
def notAfter (v : Option Int) : Bool :=
  match v with
  | some x => decide (x ≤ 0)
  | none => true

/-- Method `sort(comparator)` on a copy of the array: a stable insertion sort
(an element goes before the first element it may stay before).  With a
consistent comparator every conforming engine returns this list.  With an
inconsistent one (a comparator that returns `NaN` for some pairs only) the
order is implementation-defined, and this list is one of those a conforming
engine may return. -/
def arraySort {α : Type} (l : List α) (comparator : α → α → Option Int) : List α :=
  l.insertionSort fun a b => notAfter (comparator a b) = true

/-- Lower case of the letters A to Z: `toLowerCase()` on ASCII strings, the
`toLowerCase` of the sample hosts. -/
def toLowerAscii (s : String) : String := ⟨s.data.map Char.toLower⟩

/-- Whether a nullable string is truthy. -/
def truthyStr : Option String → Bool
  | some s => !s.isEmpty
  | none => false

/-- Whether a nullable number is truthy. -/
def truthyNum : Option Int → Bool
  | some n => n != 0
  | none => false

def createEventItem (h : Host) (entry : Entry) (index : Nat) : EventItem :=
  let classes := ["event-item"]
  let classes :=
    if truthyStr entry.category then
      let categoryClass : String := ⟨dashSpaces (h.toLowerCase (entry.category.getD "")).data⟩
      classes ++ ["category-" ++ categoryClass]
    else classes
  let startDate := newDateString h entry.start
  let endDate := newDateString h entry.end_
  { entry := entry
    classes := classes
    title := escapeHtml entry.title
    time := "📅 " ++ formatDate h startDate ++ " " ++ formatTime h startDate ++ " - " ++
      formatTime h endDate
    description :=
      if truthyStr entry.description then some (escapeHtml (entry.description.getD "")) else none
    category :=
      if truthyStr entry.category then some (escapeHtml (entry.category.getD "")) else none
    reminder :=
      if truthyNum entry.reminderMinutesBefore then
        some ("🔔 " ++ numToString entry.reminderMinutesBefore ++ " Min. vorher")
      else none
    editArg := index
    deleteArg := index }

/-- The array `sortedEntries` of `renderEventsList`. -/
def sortedEntries (h : Host) (entries : List Entry) : List Entry :=
  arraySort entries (compareStart h)

/-- The content `renderEventsList` gives the list. -/
def eventsListOf (h : Host) (entries : List Entry) : EventsList :=
  if entries.length = 0 then EventsList.emptyState
  else
    EventsList.items
      ((sortedEntries h entries).enum.map fun p => createEventItem h p.2 p.1)

def renderEventsList (h : Host) (s : State) : State :=
  { s with eventsList := eventsListOf h s.entries }

/-- The items of a rendered list (none in the empty state). -/
def EventsList.toList : EventsList → List EventItem
  | EventsList.emptyState => []
  | EventsList.items l => l

/-! ## calendar.js: modal management -/

/-- Function `openNewEntryModal(date)`; `none` is the default `null`.  The
copy `tomorrow` is never read and is left out. -/
def openNewEntryModal (h : Host) (s : State) (date : Option JSDate) : State :=
  let today := date.getD (newDateNow h)
  { s with
    editingIndex := -1
    modalTitle := "Neuer Termin"
    form := { Form.reset with
      entryStartDate := formatDateInput h today
      entryEndDate := formatDateInput h today
      entryStartTime := "09:00"
      entryEndTime := "10:00" }
    modalShown := true }

/-- Element `entries[index]`; `none` is `undefined`. -/
def entryAt (entries : List Entry) (index : Int) : Option Entry :=
  if 0 ≤ index then entries[index.toNat]? else none

/-- Function `editEntry(index)`.  When `entries[index]` is `undefined`,
reading `entry.start` throws: the two assignments before it stay, the form
and the modal are not touched. -/
def editEntry (h : Host) (s : State) (index : Int) : State × Effects :=
  let s := { s with editingIndex := index }
  match entryAt s.entries index with
  | none => ({ s with modalTitle := "Termin bearbeiten" }, ⟨[], [], true⟩)
  | some entry =>
    let s := { s with modalTitle := "Termin bearbeiten" }
    let startDate := newDateString h entry.start
    let endDate := newDateString h entry.end_
    ({ s with
      form :=
        { entryTitle := entry.title
          entryDescription := if truthyStr entry.description then entry.description.getD "" else ""
          entryStartDate := formatDateInput h startDate
          entryStartTime := formatTimeInput h startDate
          entryEndDate := formatDateInput h endDate
          entryEndTime := formatTimeInput h endDate
          entryCategory := if truthyStr entry.category then entry.category.getD "" else ""
          entryReminder :=
            if truthyNum entry.reminderMinutesBefore then numToString entry.reminderMinutesBefore
            else "" }
      modalShown := true }, ⟨[], [], false⟩)

def closeModal (s : State) : State :=
  { s with modalShown := false, editingIndex := -1 }

def showDayEvents (h : Host) (s : State) (date : JSDate) (dayEntries : List Entry) : State :=
  if dayEntries.length = 0 then openNewEntryModal h s (some date) else s

/-! ## calendar.js: entries management -/

def loadEntries (h : Host) (s : State) (outcome : LoadOutcome) : State × Effects :=
  let s := setStatus s "Lade Termine..."
  let request : Request := ⟨Method.GET, API_BASE ++ "/entries", none⟩
  match outcome with
  | LoadOutcome.ok body =>
    let s := { s with entries := body }
    let s := renderEventsList h s
    let s := renderCalendar h s
    (setStatus s ("Status: " ++ toString s.entries.length ++ " Termine geladen"),
      ⟨[request], [], false⟩)
  | LoadOutcome.notOk => (setStatus s "Fehler beim Laden der Termine", ⟨[request], [], false⟩)
  | LoadOutcome.okBadJson => (setStatus s "Fehler beim Laden der Termine", ⟨[request], [], false⟩)
  | LoadOutcome.networkError => (setStatus s "Fehler beim Laden der Termine", ⟨[request], [], false⟩)

/-- The entry `saveEntry` builds from the form. -/
def entryOfForm (f : Form) : Entry :=
  let title := trim f.entryTitle
  let description := trim f.entryDescription
  let category := trim f.entryCategory
  let reminder := f.entryReminder
  let start := f.entryStartDate ++ "T" ++ f.entryStartTime
  let end_ := f.entryEndDate ++ "T" ++ f.entryEndTime
  { title := title
    description := if description.isEmpty then none else some description
    start := start
    end_ := end_
    category := if category.isEmpty then none else some category
    reminderMinutesBefore := if reminder.isEmpty then none else parseInt reminder }

/-- Function `saveEntry`: `outcome` is what became of the save request,
`reload` what became of the reload that follows a success. -/
def saveEntry (h : Host) (s : State) (outcome : Outcome) (reload : LoadOutcome) :
    State × Effects :=
  let entry := entryOfForm s.form
  let url :=
    if s.editingIndex ≥ 0 then API_BASE ++ "/entries/" ++ toString s.editingIndex
    else API_BASE ++ "/entries"
  let method := if s.editingIndex ≥ 0 then Method.PUT else Method.POST
  let request : Request := ⟨method, url, some entry⟩
  match outcome with
  | Outcome.ok =>
    let s := setStatus s "Termin gespeichert"
    let s := closeModal s
    let (s, eff) := loadEntries h s reload
    (s, { eff with requests := request :: eff.requests })
  | Outcome.notOk => (s, ⟨[request], ["Fehler beim Speichern des Termins"], false⟩)
  | Outcome.networkError => (s, ⟨[request], ["Fehler beim Speichern des Termins"], false⟩)

/-- Function `deleteEntry(index)`: `confirmed` is the answer to the
confirmation dialog. -/
def deleteEntry (h : Host) (s : State) (index : Int) (confirmed : Bool) (outcome : Outcome)
    (reload : LoadOutcome) : State × Effects :=
  if !confirmed then (s, ⟨[], [], false⟩)
  else
    let request : Request := ⟨Method.DELETE, API_BASE ++ "/entries/" ++ toString index, none⟩
    match outcome with
    | Outcome.ok =>
      let s := setStatus s "Termin gelöscht"
      let (s, eff) := loadEntries h s reload
      (s, { eff with requests := request :: eff.requests })
    | Outcome.notOk => (s, ⟨[request], ["Fehler beim Löschen des Termins"], false⟩)
    | Outcome.networkError => (s, ⟨[request], ["Fehler beim Löschen des Termins"], false⟩)

/-! ## Sample hosts and dates -/

/-- A host in the UTC zone whose `Date.parse` returns `NaN` for every string
outside the date-time format; the current instant is 2024-03-10T09:00Z. -/
def utcHost : Host := ⟨0, fun _ => none, 1710061200000, toLowerAscii⟩

/-- A host one hour east of UTC, otherwise as `utcHost`. -/
def cetHost : Host := ⟨3600000, fun _ => none, 1710061200000, toLowerAscii⟩

/-- The instant 2024-03-10T09:00Z. -/
def sampleDate : JSDate := ⟨some 1710061200000⟩

/-- The entry of the scenario: `A`, 10 March 2024 from 09:00 to 10:00. -/
def entryA : Entry :=
  { title := "A", description := none, start := "2024-03-10T09:00", end_ := "2024-03-10T10:00",
    category := none, reminderMinutesBefore := none }

/-- A state showing March 2024, with the entry of the scenario in the cache
and the modal closed. -/
def sampleState : State :=
  { currentDate := sampleDate, entries := [entryA], editingIndex := -1, darkMode := false,
    modalShown := false, modalTitle := "", form := Form.reset, statusLabel := "",
    currentMonth := "", calendarGrid := [], eventsList := EventsList.emptyState }

def Cell.isFiller : Cell → Bool
  | Cell.filler => true
  | _ => false

def Cell.isDay : Cell → Bool
  | Cell.day _ => true
  | _ => false

/-- The local calendar day of a date, as a day number: the day key of the
spec, `none` for `Invalid Date`. -/
def localDay (h : Host) (d : JSDate) : Option Int :=
  d.tv.map fun t => Day (LocalTime h t)

/-- An entry of the scenario rewritten to another time of the same day and
another end. -/
def shiftWithinDay (e : Entry) : Entry :=
  { e with start := "2024-03-10T23:30", end_ := "2025-01-01T00:00" }

/-- The time value of the start of an entry, `none` when it does not parse. -/
def startValue (h : Host) (e : Entry) : Option Int := (newDateString h e.start).tv

/-- The cache is in non-decreasing order of start: of two entries with
valid starts, the earlier in the list does not start later. -/
def startsAscending (h : Host) (l : List Entry) : Prop :=
  l.Pairwise fun a b => ∀ x y, startValue h a = some x → startValue h b = some y → x ≤ y

/-- The order of the starts with `Invalid Date` before every date: on entries
with valid starts it is the order the comparator of the sort induces. -/
def startLE (h : Host) (a b : Entry) : Bool :=
  match startValue h a, startValue h b with
  | some x, some y => decide (x ≤ y)
  | none, _ => true
  | some _, none => false

/-- Two entries starting at the same instant, and one starting earlier. -/
def entryB : Entry := { entryA with title := "B" }
def entryC : Entry := { entryA with title := "C", start := "2024-03-09T09:00" }

/-- Three entries: one starting on 12 March 2024, one whose start is not a
date, one starting on 1 March 2024. -/
def entryLate : Entry := { entryA with title := "L", start := "2024-03-12T09:00" }
def entryGarbage : Entry := { entryA with title := "G", start := "garbage" }
def entryEarly : Entry := { entryA with title := "E", start := "2024-03-01T09:00" }

/-! ## Theorems -/

/-! ### Years -/

theorem DayFromYear_succ (y : Int) : DayFromYear (y + 1) = DayFromYear y + DaysInYear y := by
  unfold DayFromYear DaysInYear
  split_ifs <;> omega

theorem DaysInYear_cases (y : Int) : DaysInYear y = 365 ∨ DaysInYear y = 366 := by
  unfold DaysInYear
  split_ifs <;> simp

theorem DayFromYear_mono {y y' : Int} (h : y ≤ y') : DayFromYear y ≤ DayFromYear y' := by
  unfold DayFromYear
  omega

theorem DayFromYear_estimate_hi (d : Int) : d < DayFromYear (1970 + d * 400 / 146097 + 2) := by
  unfold DayFromYear
  omega

theorem DayFromYear_estimate_lo (d : Int) : DayFromYear (1970 + d * 400 / 146097 - 1) ≤ d := by
  unfold DayFromYear
  omega

/-- The year of a time value starts on or before its day, and the next year
starts after it. -/
theorem YearFromTime_spec (t : Int) :
    DayFromYear (YearFromTime t) ≤ Day t ∧ Day t < DayFromYear (YearFromTime t + 1) := by
  have hhi := DayFromYear_estimate_hi (Day t)
  have hlo := DayFromYear_estimate_lo (Day t)
  unfold YearFromTime
  simp only
  generalize 1970 + Day t * 400 / 146097 = y at *
  have e1 : y + 1 + 1 = y + 2 := by ring
  have e2 : y - 1 + 1 = y := by ring
  split_ifs with h1 h2
  · exact ⟨h1, by rw [e1]; exact hhi⟩
  · exact ⟨h2, by omega⟩
  · exact ⟨hlo, by rw [e2]; omega⟩

/-- The year of a time value is the only year whose days include its day. -/
theorem YearFromTime_unique (t y : Int) (h1 : DayFromYear y ≤ Day t)
    (h2 : Day t < DayFromYear y + DaysInYear y) : YearFromTime t = y := by
  obtain ⟨s1, s2⟩ := YearFromTime_spec t
  rw [← DayFromYear_succ] at h2
  by_contra hne
  rcases lt_or_gt_of_ne hne with hlt | hgt
  · have := DayFromYear_mono (show YearFromTime t + 1 ≤ y by omega)
    omega
  · have := DayFromYear_mono (show y + 1 ≤ YearFromTime t by omega)
    omega

/-- The year of a time value is the largest year starting on or before it
(the definition of ECMA-262). -/
theorem YearFromTime_largest (t y : Int) :
    TimeFromYear y ≤ t ↔ y ≤ YearFromTime t := by
  obtain ⟨s1, s2⟩ := YearFromTime_spec t
  have key : TimeFromYear y ≤ t ↔ DayFromYear y ≤ Day t := by
    unfold TimeFromYear Day msPerDay
    omega
  rw [key]
  constructor
  · intro h
    by_contra hgt
    have := DayFromYear_mono (show YearFromTime t + 1 ≤ y by omega)
    omega
  · intro h
    have := DayFromYear_mono h
    omega

theorem DayWithinYear_bounds (t : Int) :
    0 ≤ DayWithinYear t ∧ DayWithinYear t < DaysInYear (YearFromTime t) := by
  obtain ⟨s1, s2⟩ := YearFromTime_spec t
  rw [DayFromYear_succ] at s2
  unfold DayWithinYear
  omega

theorem leap_iff (y : Int) :
    DaysInYear y = 366 ↔ (y % 4 = 0 ∧ (y % 100 ≠ 0 ∨ y % 400 = 0)) := by
  unfold DaysInYear
  split_ifs <;> omega

theorem MakeDay_of_month (y m dt : Int) (hm : 0 ≤ m ∧ m ≤ 11) :
    MakeDay y m dt =
      DayFromYear y + daysBeforeMonth m (if DaysInYear y = 366 then 1 else 0) + dt - 1 := by
  have h1 : m / 12 = 0 := by omega
  have h2 : m % 12 = m := by omega
  simp only [MakeDay, h1, h2, add_zero]

theorem leapFlag_cases (y : Int) :
    ∃ L : Int, (if DaysInYear y = 366 then (1 : Int) else 0) = L ∧ DaysInYear y = 365 + L ∧
      (L = 0 ∨ L = 1) := by
  rcases DaysInYear_cases y with hc | hc
  · exact ⟨0, by rw [hc]; rfl, by rw [hc]; rfl, Or.inl rfl⟩
  · exact ⟨1, by rw [hc]; rfl, by rw [hc]; rfl, Or.inr rfl⟩

/-- The month table of `monthLength` and the table of `daysBeforeMonth`
agree: a month ends where the next one starts. -/
theorem daysBeforeMonth_next (y m L : Int) (hm : 0 ≤ m ∧ m ≤ 11)
    (hL : DaysInYear y = 365 + L) (hL01 : L = 0 ∨ L = 1) :
    daysBeforeMonth m L + monthLength y m =
      if m = 11 then 365 + L else daysBeforeMonth (m + 1) L := by
  obtain ⟨hm0, hm1⟩ := hm
  have hleap := leap_iff y
  have h29 : (if y % 4 = 0 ∧ (y % 100 ≠ 0 ∨ y % 400 = 0) then (29 : Int) else 28) = 28 + L := by
    rcases hL01 with h | h
    · rw [if_neg (by rw [← hleap]; omega)]; omega
    · rw [if_pos (by rw [← hleap]; omega)]; omega
  interval_cases m <;> simp [daysBeforeMonth, monthLength, h29] <;> omega

theorem daysBeforeMonth_nonneg (m L : Int) (hL01 : L = 0 ∨ L = 1) :
    0 ≤ daysBeforeMonth m L := by
  unfold daysBeforeMonth
  omega

theorem daysBeforeMonth_end (m L : Int) (hm : 0 ≤ m ∧ m ≤ 11) (hL01 : L = 0 ∨ L = 1) :
    (if m = 11 then 365 + L else daysBeforeMonth (m + 1) L) ≤ 365 + L := by
  obtain ⟨hm0, hm1⟩ := hm
  interval_cases m <;> simp [daysBeforeMonth]
  omega

/-- The month table of ECMA-262 read at a day of month `m`. -/
theorem month_table (k L m : Int) (hm : 0 ≤ m ∧ m ≤ 11) (hL01 : L = 0 ∨ L = 1)
    (h1 : daysBeforeMonth m L ≤ k)
    (h2 : k < if m = 11 then 365 + L else daysBeforeMonth (m + 1) L) :
    (if k < 31 then (0 : Int)
      else if k < 59 + L then 1
      else if k < 90 + L then 2
      else if k < 120 + L then 3
      else if k < 151 + L then 4
      else if k < 181 + L then 5
      else if k < 212 + L then 6
      else if k < 243 + L then 7
      else if k < 273 + L then 8
      else if k < 304 + L then 9
      else if k < 334 + L then 10
      else 11) = m := by
  obtain ⟨hm0, hm1⟩ := hm
  interval_cases m <;> simp [daysBeforeMonth] at h1 h2 <;> omega

/-- The date table of ECMA-262 read at month `m`. -/
theorem date_table (k L m : Int) (hm : 0 ≤ m ∧ m ≤ 11) :
    (if m = 0 then k + 1
      else if m = 1 then k - 30
      else if m = 2 then k - 58 - L
      else if m = 3 then k - 89 - L
      else if m = 4 then k - 119 - L
      else if m = 5 then k - 150 - L
      else if m = 6 then k - 180 - L
      else if m = 7 then k - 211 - L
      else if m = 8 then k - 242 - L
      else if m = 9 then k - 272 - L
      else if m = 10 then k - 303 - L
      else k - 333 - L) = k - daysBeforeMonth m L + 1 := by
  obtain ⟨hm0, hm1⟩ := hm
  interval_cases m <;> simp [daysBeforeMonth] <;> omega

/-- A day given as year, month and date has these three fields. -/
theorem fields_of_MakeDay (t y m dt : Int) (hm : 0 ≤ m ∧ m ≤ 11)
    (hd : 1 ≤ dt ∧ dt ≤ monthLength y m) (ht : Day t = MakeDay y m dt) :
    YearFromTime t = y ∧ MonthFromTime t = m ∧ DateFromTime t = dt := by
  rw [MakeDay_of_month y m dt hm] at ht
  obtain ⟨hd0, hd1⟩ := hd
  obtain ⟨L, hL, hD, hL01⟩ := leapFlag_cases y
  rw [hL] at ht
  have hnext := daysBeforeMonth_next y m L hm hD hL01
  have hnn := daysBeforeMonth_nonneg m L hL01
  have hlt : daysBeforeMonth m L + monthLength y m ≤ 365 + L := by
    rw [hnext]; exact daysBeforeMonth_end m L hm hL01
  have hy : YearFromTime t = y := by
    apply YearFromTime_unique <;> omega
  have hdw : DayWithinYear t = Day t - DayFromYear y := by unfold DayWithinYear; rw [hy]
  have hil : InLeapYear t = L := by unfold InLeapYear; rw [hy]; exact hL
  have hm' : MonthFromTime t = m := by
    simp only [MonthFromTime, hil, hdw]
    exact month_table _ L m hm hL01 (by omega) (by rw [← hnext]; omega)
  refine ⟨hy, hm', ?_⟩
  simp only [DateFromTime, hil, hdw, hm']
  rw [date_table _ L m hm]
  omega

/-- The month table of ECMA-262 returns a month that contains the day. -/
theorem month_table_inv (k L m : Int) (hk : 0 ≤ k ∧ k < 365 + L)
    (hm : (if k < 31 then (0 : Int)
      else if k < 59 + L then 1
      else if k < 90 + L then 2
      else if k < 120 + L then 3
      else if k < 151 + L then 4
      else if k < 181 + L then 5
      else if k < 212 + L then 6
      else if k < 243 + L then 7
      else if k < 273 + L then 8
      else if k < 304 + L then 9
      else if k < 334 + L then 10
      else 11) = m) :
    (0 ≤ m ∧ m ≤ 11) ∧ daysBeforeMonth m L ≤ k ∧
      k < (if m = 11 then 365 + L else daysBeforeMonth (m + 1) L) := by
  by_cases c0 : k < 31
  · rw [if_pos c0] at hm; subst hm; simp [daysBeforeMonth]; omega
  rw [if_neg c0] at hm
  by_cases c1 : k < 59 + L
  · rw [if_pos c1] at hm; subst hm; simp [daysBeforeMonth]; omega
  rw [if_neg c1] at hm
  by_cases c2 : k < 90 + L
  · rw [if_pos c2] at hm; subst hm; simp [daysBeforeMonth]; omega
  rw [if_neg c2] at hm
  by_cases c3 : k < 120 + L
  · rw [if_pos c3] at hm; subst hm; simp [daysBeforeMonth]; omega
  rw [if_neg c3] at hm
  by_cases c4 : k < 151 + L
  · rw [if_pos c4] at hm; subst hm; simp [daysBeforeMonth]; omega
  rw [if_neg c4] at hm
  by_cases c5 : k < 181 + L
  · rw [if_pos c5] at hm; subst hm; simp [daysBeforeMonth]; omega
  rw [if_neg c5] at hm
  by_cases c6 : k < 212 + L
  · rw [if_pos c6] at hm; subst hm; simp [daysBeforeMonth]; omega
  rw [if_neg c6] at hm
  by_cases c7 : k < 243 + L
  · rw [if_pos c7] at hm; subst hm; simp [daysBeforeMonth]; omega
  rw [if_neg c7] at hm
  by_cases c8 : k < 273 + L
  · rw [if_pos c8] at hm; subst hm; simp [daysBeforeMonth]; omega
  rw [if_neg c8] at hm
  by_cases c9 : k < 304 + L
  · rw [if_pos c9] at hm; subst hm; simp [daysBeforeMonth]; omega
  rw [if_neg c9] at hm
  by_cases c10 : k < 334 + L
  · rw [if_pos c10] at hm; subst hm; simp [daysBeforeMonth]; omega
  rw [if_neg c10] at hm
  subst hm; simp [daysBeforeMonth]; omega

/-- Every time value lies on the day its year, month and date name, and
these are a month from 0 to 11 and a date of that month. -/
theorem MakeDay_of_fields (t : Int) :
    (0 ≤ MonthFromTime t ∧ MonthFromTime t ≤ 11) ∧
    (1 ≤ DateFromTime t ∧ DateFromTime t ≤ monthLength (YearFromTime t) (MonthFromTime t)) ∧
    Day t = MakeDay (YearFromTime t) (MonthFromTime t) (DateFromTime t) := by
  obtain ⟨L, hL, hD, hL01⟩ := leapFlag_cases (YearFromTime t)
  have hk := DayWithinYear_bounds t
  rw [hD] at hk
  have hil : InLeapYear t = L := hL
  have hmt := month_table_inv (DayWithinYear t) L (MonthFromTime t) hk
    (by simp only [MonthFromTime, hil])
  obtain ⟨hm, h1, h2⟩ := hmt
  have hdate : DateFromTime t = DayWithinYear t - daysBeforeMonth (MonthFromTime t) L + 1 := by
    rw [← date_table _ L _ hm]
    simp only [DateFromTime, hil]
  have hnext := daysBeforeMonth_next (YearFromTime t) (MonthFromTime t) L hm hD hL01
  refine ⟨hm, ⟨by omega, by omega⟩, ?_⟩
  rw [MakeDay_of_month _ _ _ hm, hL, hdate]
  unfold DayWithinYear
  omega

/-! ### Time within the day -/

theorem Day_MakeDate (day time : Int) (h : 0 ≤ time ∧ time < msPerDay) :
    Day (MakeDate day time) = day := by
  unfold Day MakeDate msPerDay at *
  omega

theorem MakeTime_bounds (hh mm : Int) (h1 : 0 ≤ hh ∧ hh ≤ 23) (h2 : 0 ≤ mm ∧ mm ≤ 59) :
    0 ≤ MakeTime hh mm 0 0 ∧ MakeTime hh mm 0 0 < msPerDay := by
  unfold MakeTime msPerHour msPerMinute msPerSecond msPerDay
  omega

theorem HourFromTime_MakeDate (day hh mm : Int) (h1 : 0 ≤ hh ∧ hh ≤ 23)
    (h2 : 0 ≤ mm ∧ mm ≤ 59) : HourFromTime (MakeDate day (MakeTime hh mm 0 0)) = hh := by
  unfold HourFromTime MakeDate MakeTime msPerHour msPerMinute msPerSecond msPerDay
  omega

theorem MinFromTime_MakeDate (day hh mm : Int) (h2 : 0 ≤ mm ∧ mm ≤ 59) :
    MinFromTime (MakeDate day (MakeTime hh mm 0 0)) = mm := by
  unfold MinFromTime MakeDate MakeTime msPerHour msPerMinute msPerSecond msPerDay
  omega

theorem HourFromTime_bounds (t : Int) : 0 ≤ HourFromTime t ∧ HourFromTime t ≤ 23 := by
  unfold HourFromTime
  omega

theorem MinFromTime_bounds (t : Int) : 0 ≤ MinFromTime t ∧ MinFromTime t ≤ 59 := by
  unfold MinFromTime
  omega

theorem WeekDay_bounds (t : Int) : 0 ≤ WeekDay t ∧ WeekDay t ≤ 6 := by
  unfold WeekDay
  omega

/-- Year, month, date and weekday of a time value depend on its day only. -/
theorem fields_congr {t t' : Int} (h : Day t = Day t') :
    YearFromTime t = YearFromTime t' ∧ MonthFromTime t = MonthFromTime t' ∧
      DateFromTime t = DateFromTime t' ∧ WeekDay t = WeekDay t' := by
  have hy : YearFromTime t = YearFromTime t' := by unfold YearFromTime; rw [h]
  have hd : DayWithinYear t = DayWithinYear t' := by unfold DayWithinYear; rw [h, hy]
  have hl : InLeapYear t = InLeapYear t' := by unfold InLeapYear; rw [hy]
  have hm : MonthFromTime t = MonthFromTime t' := by unfold MonthFromTime; rw [hd, hl]
  refine ⟨hy, hm, ?_, ?_⟩
  · unfold DateFromTime; rw [hd, hl, hm]
  · unfold WeekDay; rw [h]

/-- Two time values with the same year, month and date lie on the same day. -/
theorem Day_eq_of_fields {t t' : Int} (hy : YearFromTime t = YearFromTime t')
    (hm : MonthFromTime t = MonthFromTime t') (hd : DateFromTime t = DateFromTime t') :
    Day t = Day t' := by
  rw [(MakeDay_of_fields t).2.2, (MakeDay_of_fields t').2.2, hy, hm, hd]

/-! ### The range of time values -/

theorem Day_of_year_range (t : Int)
    (hy : -271820 ≤ YearFromTime t ∧ YearFromTime t ≤ 275759) :
    -99999744 ≤ Day t ∧ Day t < 99999744 := by
  obtain ⟨s1, s2⟩ := YearFromTime_spec t
  have h1 := DayFromYear_mono hy.1
  have h2 := DayFromYear_mono (show YearFromTime t + 1 ≤ 275760 by omega)
  have e1 : DayFromYear (-271820) = -99999744 := by decide
  have e2 : DayFromYear 275760 = 99999744 := by decide
  omega

/-- A local time in the years -271820 to 275759 is the local time of a valid
time value, when the zone offset is less than a day. -/
theorem TimeClip_UTC (h : Host) (htz : -msPerDay ≤ h.tza ∧ h.tza ≤ msPerDay) (t : Int)
    (hy : -271820 ≤ YearFromTime t ∧ YearFromTime t ≤ 275759) :
    TimeClip (UTC h t) = some (t - h.tza) := by
  have hd := Day_of_year_range t hy
  unfold TimeClip UTC
  rw [if_neg]
  unfold Day msPerDay at *
  omega

theorem LocalTime_UTC (h : Host) (t : Int) : LocalTime h (t - h.tza) = t := by
  unfold LocalTime
  omega

/-! ### Decimal strings -/

theorem digitVal_digitChar (k : Nat) (hk : k < 10) :
    digitVal (Nat.digitChar k) = some (Int.ofNat k) := by
  interval_cases k <;> rfl

theorem digitChar_ne_sign (k : Nat) (hk : k < 10) :
    Nat.digitChar k ≠ '+' ∧ Nat.digitChar k ≠ '-' := by
  interval_cases k <;> decide

theorem toDigits_one (k : Nat) (hk : k < 10) : Nat.toDigits 10 k = [Nat.digitChar k] := by
  interval_cases k <;> rfl

theorem toDigits_two (k : Nat) (h1 : 10 ≤ k) (h2 : k < 100) :
    Nat.toDigits 10 k = [Nat.digitChar (k / 10), Nat.digitChar (k % 10)] := by
  interval_cases k <;> rfl

theorem toDigitsCore_step (f n : Nat) (ds : List Char) :
    Nat.toDigitsCore 10 (f + 1) n ds =
      if n / 10 = 0 then Nat.digitChar (n % 10) :: ds
      else Nat.toDigitsCore 10 f (n / 10) (Nat.digitChar (n % 10) :: ds) := by
  rfl

theorem toDigits_four (k : Nat) (h1 : 1000 ≤ k) (h2 : k < 10000) :
    Nat.toDigits 10 k = [Nat.digitChar (k / 1000), Nat.digitChar (k / 100 % 10),
      Nat.digitChar (k / 10 % 10), Nat.digitChar (k % 10)] := by
  obtain ⟨j, rfl⟩ : ∃ j, k = j + 1000 := ⟨k - 1000, by omega⟩
  unfold Nat.toDigits
  have e : j + 1000 + 1 = (j + 997) + 1 + 1 + 1 + 1 := by omega
  rw [e, toDigitsCore_step, toDigitsCore_step, toDigitsCore_step, toDigitsCore_step]
  have c1 : ¬ (j + 1000) / 10 = 0 := by omega
  have c2 : ¬ (j + 1000) / 10 / 10 = 0 := by omega
  have c3 : ¬ (j + 1000) / 10 / 10 / 10 = 0 := by omega
  have c4 : (j + 1000) / 10 / 10 / 10 / 10 = 0 := by omega
  rw [if_neg c1, if_neg c2, if_neg c3, if_pos c4]
  have d1 : (j + 1000) / 10 / 10 / 10 % 10 = (j + 1000) / 1000 := by omega
  have d2 : (j + 1000) / 10 / 10 % 10 = (j + 1000) / 100 % 10 := by omega
  rw [d1, d2]

/-- A number from 0 to 99 padded to two places is its two decimal digits. -/
theorem padStart_two (k : Nat) (hk : k < 100) :
    (padStart (numToString (some (Int.ofNat k))) 2 '0').data =
      [Nat.digitChar (k / 10), Nat.digitChar (k % 10)] := by
  have hs : numToString (some (Int.ofNat k)) = ⟨Nat.toDigits 10 k⟩ := rfl
  rw [hs]
  unfold padStart
  by_cases h10 : k < 10
  · rw [toDigits_one k h10]
    have : k / 10 = 0 := by omega
    have : k % 10 = k := by omega
    simp [String.length, *]
    rfl
  · rw [toDigits_two k (by omega) hk]
    simp [String.length]

/-- A number from 1000 to 9999 is written with its four decimal digits. -/
theorem numToString_four (k : Nat) (h1 : 1000 ≤ k) (h2 : k < 10000) :
    (numToString (some (Int.ofNat k))).data =
      [Nat.digitChar (k / 1000), Nat.digitChar (k / 100 % 10),
        Nat.digitChar (k / 10 % 10), Nat.digitChar (k % 10)] := by
  have hs : numToString (some (Int.ofNat k)) = ⟨Nat.toDigits 10 k⟩ := rfl
  rw [hs, toDigits_four k h1 h2]

theorem num2_digitChar (a b : Nat) (ha : a < 10) (hb : b < 10) :
    num2 (Nat.digitChar a) (Nat.digitChar b) = some (10 * Int.ofNat a + Int.ofNat b) := by
  simp [num2, digitVal_digitChar, ha, hb]

theorem num4_digitChar (a b c d : Nat) (ha : a < 10) (hb : b < 10) (hc : c < 10) (hd : d < 10) :
    num4 (Nat.digitChar a) (Nat.digitChar b) (Nat.digitChar c) (Nat.digitChar d) =
      some (100 * (10 * Int.ofNat a + Int.ofNat b) + (10 * Int.ofNat c + Int.ofNat d)) := by
  simp [num4, num2_digitChar, ha, hb, hc, hd]

/-- A number from 0 to 99 padded to two places is two digits that read as
the number. -/
theorem two_digits_of (n : Int) (hn : 0 ≤ n ∧ n ≤ 99) :
    ∃ a b, (padStart (numToString (some n)) 2 '0').data = [a, b] ∧ num2 a b = some n := by
  obtain ⟨k, rfl⟩ : ∃ k : Nat, n = Int.ofNat k := ⟨n.toNat, by simp; omega⟩
  have hk : k < 100 := by simp at hn; omega
  refine ⟨_, _, padStart_two k hk, ?_⟩
  rw [num2_digitChar _ _ (by omega) (Nat.mod_lt _ (by decide))]
  simp only [Int.ofNat_eq_coe]
  congr 1
  omega

/-- A number from 1000 to 9999 is written as four digits that read as the
number. -/
theorem four_digits_of (n : Int) (hn : 1000 ≤ n ∧ n ≤ 9999) :
    ∃ a b c d, (numToString (some n)).data = [a, b, c, d] ∧ num4 a b c d = some n ∧
      a ≠ '+' ∧ a ≠ '-' := by
  obtain ⟨k, rfl⟩ : ∃ k : Nat, n = Int.ofNat k := ⟨n.toNat, by simp; omega⟩
  have hk : 1000 ≤ k ∧ k < 10000 := by simp at hn; omega
  refine ⟨_, _, _, _, numToString_four k hk.1 hk.2, ?_, digitChar_ne_sign _ (by omega)⟩
  rw [num4_digitChar _ _ _ _ (by omega) (Nat.mod_lt _ (by decide)) (Nat.mod_lt _ (by decide))
    (Nat.mod_lt _ (by decide))]
  simp only [Int.ofNat_eq_coe]
  congr 1
  omega

theorem getters_of_valid (h : Host) (date : JSDate) (t : Int) (hv : date.tv = some t) :
    getFullYear h date = some (YearFromTime (LocalTime h t)) ∧
    getMonth h date = some (MonthFromTime (LocalTime h t)) ∧
    getDate h date = some (DateFromTime (LocalTime h t)) ∧
    getDay h date = some (WeekDay (LocalTime h t)) ∧
    getHours h date = some (HourFromTime (LocalTime h t)) ∧
    getMinutes h date = some (MinFromTime (LocalTime h t)) := by
  simp [getFullYear, getMonth, getDate, getDay, getHours, getMinutes, hv]

theorem DateFromTime_bounds (t : Int) : 1 ≤ DateFromTime t ∧ DateFromTime t ≤ 31 := by
  obtain ⟨_, ⟨h1, h2⟩, _⟩ := MakeDay_of_fields t
  refine ⟨h1, le_trans h2 ?_⟩
  unfold monthLength
  split_ifs <;> omega

theorem formatTime_shape (h : Host) (date : JSDate) (t : Int) (hv : date.tv = some t) :
    ∃ a b c d, (formatTime h date).data = [a, b, ':', c, d] ∧
      num2 a b = some (HourFromTime (LocalTime h t)) ∧
      num2 c d = some (MinFromTime (LocalTime h t)) := by
  obtain ⟨-, -, -, -, hH, hM⟩ := getters_of_valid h date t hv
  obtain ⟨a, b, e1, n1⟩ := two_digits_of _ ⟨(HourFromTime_bounds (LocalTime h t)).1,
    by have := (HourFromTime_bounds (LocalTime h t)).2; omega⟩
  obtain ⟨c, d, e2, n2⟩ := two_digits_of _ ⟨(MinFromTime_bounds (LocalTime h t)).1,
    by have := (MinFromTime_bounds (LocalTime h t)).2; omega⟩
  refine ⟨a, b, c, d, ?_, n1, n2⟩
  simp only [formatTime, hH, hM, String.data_append, e1, e2]
  rfl

theorem formatTimeInput_eq (h : Host) (date : JSDate) :
    formatTimeInput h date = formatTime h date := rfl

theorem formatDate_shape (h : Host) (date : JSDate) (t : Int) (hv : date.tv = some t)
    (hy : 1000 ≤ YearFromTime (LocalTime h t) ∧ YearFromTime (LocalTime h t) ≤ 9999) :
    ∃ a b c d e f g i, (formatDate h date).data = [a, b, '.', c, d, '.', e, f, g, i] ∧
      num2 a b = some (DateFromTime (LocalTime h t)) ∧
      num2 c d = some (MonthFromTime (LocalTime h t) + 1) ∧
      num4 e f g i = some (YearFromTime (LocalTime h t)) := by
  obtain ⟨hY, hM, hD, -, -, -⟩ := getters_of_valid h date t hv
  obtain ⟨hm, -, -⟩ := MakeDay_of_fields (LocalTime h t)
  have hdb := DateFromTime_bounds (LocalTime h t)
  obtain ⟨a, b, e1, n1⟩ := two_digits_of (DateFromTime (LocalTime h t)) (by omega)
  obtain ⟨c, d, e2, n2⟩ := two_digits_of (MonthFromTime (LocalTime h t) + 1) (by omega)
  obtain ⟨e, f, g, i, e3, n3, -, -⟩ := four_digits_of _ hy
  refine ⟨a, b, c, d, e, f, g, i, ?_, n1, n2, n3⟩
  simp only [formatDate, hY, hM, hD, jsAdd, String.data_append, e1, e2, e3]
  rfl

theorem formatDateInput_shape (h : Host) (date : JSDate) (t : Int) (hv : date.tv = some t)
    (hy : 1000 ≤ YearFromTime (LocalTime h t) ∧ YearFromTime (LocalTime h t) ≤ 9999) :
    ∃ a b c d e f g i, (formatDateInput h date).data = [a, b, c, d, '-', e, f, '-', g, i] ∧
      num4 a b c d = some (YearFromTime (LocalTime h t)) ∧
      num2 e f = some (MonthFromTime (LocalTime h t) + 1) ∧
      num2 g i = some (DateFromTime (LocalTime h t)) ∧ a ≠ '+' ∧ a ≠ '-' := by
  obtain ⟨hY, hM, hD, -, -, -⟩ := getters_of_valid h date t hv
  obtain ⟨hm, -, -⟩ := MakeDay_of_fields (LocalTime h t)
  have hdb := DateFromTime_bounds (LocalTime h t)
  obtain ⟨g, i, e1, n1⟩ := two_digits_of (DateFromTime (LocalTime h t)) (by omega)
  obtain ⟨e, f, e2, n2⟩ := two_digits_of (MonthFromTime (LocalTime h t) + 1) (by omega)
  obtain ⟨a, b, c, d, e3, n3, s1, s2⟩ := four_digits_of _ hy
  refine ⟨a, b, c, d, e, f, g, i, ?_, n3, n2, n1, s1, s2⟩
  simp only [formatDateInput, hY, hM, hD, jsAdd, String.data_append, e1, e2, e3]
  rfl

/-! ### Parsing what the formatters write -/

/-- A string of the shape `YYYY-MM-DDTHH:mm` is in the date-time format and
reads as these five numbers, local time. -/
theorem parseIsoFields_dateTime (a b c d e f g i p q r s : Char) (Y Mo D H Mi : Int)
    (hY : num4 a b c d = some Y) (hMo : num2 e f = some Mo) (hD : num2 g i = some D)
    (hH : num2 p q = some H) (hMi : num2 r s = some Mi) (h1 : a ≠ '+') (h2 : a ≠ '-') :
    parseIsoFields [a, b, c, d, '-', e, f, '-', g, i, 'T', p, q, ':', r, s] =
      some ⟨Y, Mo, D, some (H, Mi, 0, 0), none⟩ := by
  simp [parseIsoFields, parseDatePart, parseYear, parseDashNum, parseTimePart, parseSeconds,
    parseOffset, hY, hMo, hD, hH, hMi, h1, h2]

/-- Round trip through the date and time inputs, for a date in the years
1000 to 9999: the parsed time value is the start of the minute. -/
theorem parse_format_roundtrip (h : Host) (htz : -msPerDay ≤ h.tza ∧ h.tza ≤ msPerDay)
    (date : JSDate) (t : Int) (hv : date.tv = some t)
    (hy : 1000 ≤ YearFromTime (LocalTime h t) ∧ YearFromTime (LocalTime h t) ≤ 9999) :
    dateParse h (formatDateInput h date ++ "T" ++ formatTimeInput h date) =
      some (MakeDate (Day (LocalTime h t))
        (MakeTime (HourFromTime (LocalTime h t)) (MinFromTime (LocalTime h t)) 0 0) - h.tza) := by
  obtain ⟨a, b, c, d, e, f, g, i, e1, nY, nM, nD, s1, s2⟩ := formatDateInput_shape h date t hv hy
  obtain ⟨p, q, r, s, e2, nH, nMi⟩ := formatTime_shape h date t hv
  have hdata : (formatDateInput h date ++ "T" ++ formatTimeInput h date).data =
      [a, b, c, d, '-', e, f, '-', g, i, 'T', p, q, ':', r, s] := by
    rw [formatTimeInput_eq]
    simp only [String.data_append, e1, e2]
    rfl
  obtain ⟨hm, hdb, hday⟩ := MakeDay_of_fields (LocalTime h t)
  have hdb31 := DateFromTime_bounds (LocalTime h t)
  have hH := HourFromTime_bounds (LocalTime h t)
  have hMi := MinFromTime_bounds (LocalTime h t)
  have hmt := MakeTime_bounds _ _ hH hMi
  unfold dateParse
  rw [hdata, parseIsoFields_dateTime a b c d e f g i p q r s _ _ _ _ _ nY nM nD nH nMi s1 s2]
  have hb : (IsoFields.mk (YearFromTime (LocalTime h t)) (MonthFromTime (LocalTime h t) + 1)
      (DateFromTime (LocalTime h t))
      (some (HourFromTime (LocalTime h t), MinFromTime (LocalTime h t), 0, 0)) none).inBounds
      = true := by
    simp only [IsoFields.inBounds, Bool.and_eq_true, decide_eq_true_eq, and_true]
    omega
  simp only [IsoFields.timeValue, hb, if_true, add_sub_cancel_right]
  rw [← hday]
  apply TimeClip_UTC h htz
  have hD' := Day_MakeDate (Day (LocalTime h t)) _ hmt
  rw [(fields_congr hD').1]
  omega

/-! ### C5, C10: the formatters -/

/-- C5 (amended): for a host whose zone offset is within a day and a date whose
local year is from 1000 to 9999, parsing `formatDateInput(d) + 'T' +
formatTimeInput(d)` gives a valid date with the year, month, day of month,
hour and minute of `d`. -/
theorem input_roundtrip (h : Host) (htz : -msPerDay ≤ h.tza ∧ h.tza ≤ msPerDay)
    (d : JSDate) (y : Int) (hy : getFullYear h d = some y) (h1 : 1000 ≤ y) (h2 : y ≤ 9999) :
    (getFullYear h (newDateString h (formatDateInput h d ++ "T" ++ formatTimeInput h d)) = some y ∧
      getFullYear h d = some y) ∧
    (getMonth h (newDateString h (formatDateInput h d ++ "T" ++ formatTimeInput h d)) =
      getMonth h d ∧ (getMonth h d).isSome) ∧
    (getDate h (newDateString h (formatDateInput h d ++ "T" ++ formatTimeInput h d)) =
      getDate h d ∧ (getDate h d).isSome) ∧
    (getHours h (newDateString h (formatDateInput h d ++ "T" ++ formatTimeInput h d)) =
      getHours h d ∧ (getHours h d).isSome) ∧
    (getMinutes h (newDateString h (formatDateInput h d ++ "T" ++ formatTimeInput h d)) =
      getMinutes h d ∧ (getMinutes h d).isSome) := by
  obtain ⟨t, hv, hyt⟩ : ∃ t, d.tv = some t ∧ YearFromTime (LocalTime h t) = y := by
    unfold getFullYear at hy
    cases hd : d.tv with
    | none => rw [hd] at hy; cases hy
    | some t => rw [hd] at hy; exact ⟨t, rfl, by simpa using hy⟩
  have hyr : 1000 ≤ YearFromTime (LocalTime h t) ∧ YearFromTime (LocalTime h t) ≤ 9999 := by
    omega
  have hp := parse_format_roundtrip h htz d t hv hyr
  obtain ⟨gY, gM, gD, -, gH, gMi⟩ := getters_of_valid h d t hv
  have hH := HourFromTime_bounds (LocalTime h t)
  have hMi := MinFromTime_bounds (LocalTime h t)
  have hmt := MakeTime_bounds _ _ hH hMi
  have hday := Day_MakeDate (Day (LocalTime h t)) _ hmt
  obtain ⟨cY, cM, cD, -⟩ := fields_congr hday
  obtain ⟨pY, pM, pD, -, pH, pMi⟩ := getters_of_valid h (newDateString h
    (formatDateInput h d ++ "T" ++ formatTimeInput h d)) _ hp
  rw [LocalTime_UTC] at pY pM pD pH pMi
  rw [pY, pM, pD, pH, pMi, gY, gM, gD, gH, gMi, cY, cM, cD,
    HourFromTime_MakeDate _ _ _ hH hMi, MinFromTime_MakeDate _ _ _ hMi, hyt]
  simp

/-- C5, an instance: 2024-03-10T10:00 local time on a host one hour east of
UTC. -/
theorem input_roundtrip_witness :
    (getFullYear cetHost (newDateString cetHost
        (formatDateInput cetHost sampleDate ++ "T" ++ formatTimeInput cetHost sampleDate)) =
        some 2024 ∧ getFullYear cetHost sampleDate = some 2024) ∧
    (getMonth cetHost (newDateString cetHost
        (formatDateInput cetHost sampleDate ++ "T" ++ formatTimeInput cetHost sampleDate)) =
        getMonth cetHost sampleDate ∧ (getMonth cetHost sampleDate).isSome) ∧
    (getDate cetHost (newDateString cetHost
        (formatDateInput cetHost sampleDate ++ "T" ++ formatTimeInput cetHost sampleDate)) =
        getDate cetHost sampleDate ∧ (getDate cetHost sampleDate).isSome) ∧
    (getHours cetHost (newDateString cetHost
        (formatDateInput cetHost sampleDate ++ "T" ++ formatTimeInput cetHost sampleDate)) =
        getHours cetHost sampleDate ∧ (getHours cetHost sampleDate).isSome) ∧
    (getMinutes cetHost (newDateString cetHost
        (formatDateInput cetHost sampleDate ++ "T" ++ formatTimeInput cetHost sampleDate)) =
        getMinutes cetHost sampleDate ∧ (getMinutes cetHost sampleDate).isSome) :=
  input_roundtrip cetHost (by decide) sampleDate 2024 (by decide) (by decide) (by decide)

/-- The string written for 10 March 999 is outside the date-time format on
every host: what `Date.parse` returns for it is what the host's fallback
returns. -/
theorem dateParse_unpadded_year (h : Host) :
    dateParse h "999-03-10T00:00" = (h.legacy "999-03-10T00:00").bind TimeClip := by
  have hp : parseIsoFields "999-03-10T00:00".data = none := by decide
  unfold dateParse
  rw [hp]

/-- C5 as stated fails: on a host whose `Date.parse` returns `NaN` outside the
date-time format, the valid date 10 March 999 is written `999-03-10T00:00`
and parsed back as `Invalid Date`. -/
theorem input_roundtrip_fails_year_999 :
    getFullYear utcHost (newDateYMD utcHost (some 999) (some 2) (some 10)) = some 999 ∧
    formatDateInput utcHost (newDateYMD utcHost (some 999) (some 2) (some 10)) ++ "T" ++
      formatTimeInput utcHost (newDateYMD utcHost (some 999) (some 2) (some 10)) =
      "999-03-10T00:00" ∧
    getFullYear utcHost (newDateString utcHost
      (formatDateInput utcHost (newDateYMD utcHost (some 999) (some 2) (some 10)) ++ "T" ++
        formatTimeInput utcHost (newDateYMD utcHost (some 999) (some 2) (some 10)))) = none := by
  decide

/-- C10 (amended): for every valid date, `formatTime` and `formatTimeInput`
return five characters `HH:MM` whose digit pairs read as the hour and the
minute; when the local year is from 1000 to 9999, `formatDate` returns ten
characters `DD.MM.YYYY` and `formatDateInput` ten characters `YYYY-MM-DD`,
whose digit groups read as the day, the month counted from 1 and the year. -/
theorem format_fixed_width (h : Host) (date : JSDate) (t : Int) (hv : date.tv = some t) :
    (∃ a b c d, (formatTime h date).data = [a, b, ':', c, d] ∧
      (formatTime h date).length = 5 ∧
      num2 a b = getHours h date ∧ num2 c d = getMinutes h date) ∧
    (∃ a b c d, (formatTimeInput h date).data = [a, b, ':', c, d] ∧
      (formatTimeInput h date).length = 5 ∧
      num2 a b = getHours h date ∧ num2 c d = getMinutes h date) ∧
    (1000 ≤ YearFromTime (LocalTime h t) ∧ YearFromTime (LocalTime h t) ≤ 9999 →
      (∃ a b c d e f g i, (formatDate h date).data = [a, b, '.', c, d, '.', e, f, g, i] ∧
        (formatDate h date).length = 10 ∧
        num2 a b = getDate h date ∧ num2 c d = jsAdd (getMonth h date) (some 1) ∧
        num4 e f g i = getFullYear h date) ∧
      (∃ a b c d e f g i, (formatDateInput h date).data = [a, b, c, d, '-', e, f, '-', g, i] ∧
        (formatDateInput h date).length = 10 ∧
        num4 a b c d = getFullYear h date ∧ num2 e f = jsAdd (getMonth h date) (some 1) ∧
        num2 g i = getDate h date)) := by
  obtain ⟨gY, gM, gD, -, gH, gMi⟩ := getters_of_valid h date t hv
  have ht : ∃ a b c d, (formatTime h date).data = [a, b, ':', c, d] ∧
      (formatTime h date).length = 5 ∧
      num2 a b = getHours h date ∧ num2 c d = getMinutes h date := by
    obtain ⟨a, b, c, d, e, n1, n2⟩ := formatTime_shape h date t hv
    exact ⟨a, b, c, d, e, by simp [String.length, e], by rw [gH, n1], by rw [gMi, n2]⟩
  refine ⟨ht, ?_, ?_⟩
  · rw [formatTimeInput_eq]; exact ht
  · intro hy
    constructor
    · obtain ⟨a, b, c, d, e, f, g, i, hd, n1, n2, n3⟩ := formatDate_shape h date t hv hy
      exact ⟨a, b, c, d, e, f, g, i, hd, by simp [String.length, hd], by rw [gD, n1],
        by rw [gM, n2]; rfl, by rw [gY, n3]⟩
    · obtain ⟨a, b, c, d, e, f, g, i, hd, n1, n2, n3, -, -⟩ :=
        formatDateInput_shape h date t hv hy
      exact ⟨a, b, c, d, e, f, g, i, hd, by simp [String.length, hd], by rw [gY, n1],
        by rw [gM, n2]; rfl, by rw [gD, n3]⟩

/-- C10, an instance: 2024-03-10T10:00 local time on a host one hour east of
UTC is formatted `10.03.2024`, `2024-03-10` and `10:00`. -/
theorem format_fixed_width_witness :
    sampleDate.tv = some 1710061200000 ∧
    (1000 ≤ YearFromTime (LocalTime cetHost 1710061200000) ∧
      YearFromTime (LocalTime cetHost 1710061200000) ≤ 9999) ∧
    formatDate cetHost sampleDate = "10.03.2024" ∧
    formatDateInput cetHost sampleDate = "2024-03-10" ∧
    formatTime cetHost sampleDate = "10:00" ∧
    (∃ a b c d e f g i,
      (formatDate cetHost sampleDate).data = [a, b, '.', c, d, '.', e, f, g, i] ∧
      (formatDate cetHost sampleDate).length = 10 ∧
      num2 a b = getDate cetHost sampleDate ∧
      num2 c d = jsAdd (getMonth cetHost sampleDate) (some 1) ∧
      num4 e f g i = getFullYear cetHost sampleDate) :=
  ⟨rfl, by decide, by decide, by decide, by decide,
    ((format_fixed_width cetHost sampleDate 1710061200000 rfl).2.2 (by decide)).1⟩

/-- C10 as stated fails: the valid date 1 January 12345 is formatted with a
five-digit year, eleven characters in all, by `formatDate` and by
`formatDateInput`. -/
theorem format_width_fails_year_12345 :
    (newDateYMD utcHost (some 12345) (some 0) (some 1)).tv = some 327403382400000 ∧
    formatDate utcHost (newDateYMD utcHost (some 12345) (some 0) (some 1)) = "01.01.12345" ∧
    (formatDate utcHost (newDateYMD utcHost (some 12345) (some 0) (some 1))).length = 11 ∧
    formatDateInput utcHost (newDateYMD utcHost (some 12345) (some 0) (some 1)) =
      "12345-01-01" ∧
    (formatDateInput utcHost (newDateYMD utcHost (some 12345) (some 0) (some 1))).length = 11 := by
  decide

/-! ### C4, C9: the month grid -/

theorem MakeTime_zero : MakeTime 0 0 0 0 = 0 := by decide

theorem monthLength_bounds (y m : Int) : 28 ≤ monthLength y m ∧ monthLength y m ≤ 31 := by
  unfold monthLength
  split_ifs <;> omega

/-- Day 0 of the next month is the last day of the month. -/
theorem MakeDay_last (y m : Int) (hm : 0 ≤ m ∧ m ≤ 11) :
    MakeDay y (m + 1) 0 = MakeDay y m (monthLength y m) := by
  obtain ⟨L, hL, hD, hL01⟩ := leapFlag_cases y
  have hnext := daysBeforeMonth_next y m L hm hD hL01
  rw [MakeDay_of_month y m _ hm, hL]
  by_cases h11 : m = 11
  · subst h11
    rw [if_pos rfl] at hnext
    have e : MakeDay y (11 + 1) 0 = DayFromYear (y + 1) - 1 := by
      simp [MakeDay, daysBeforeMonth]
    rw [e, DayFromYear_succ, hD]
    omega
  · rw [if_neg h11] at hnext
    rw [MakeDay_of_month y (m + 1) _ (by omega), hL]
    omega

/-- The date `new Date(year, month, date)` builds is valid and has these
fields, for a year outside 0 to 99 and a date of the month. -/
theorem newDateYMD_fields (h : Host) (htz : -msPerDay ≤ h.tza ∧ h.tza ≤ msPerDay)
    (Y M D : Int) (hr : -271820 ≤ Y ∧ Y ≤ 275759) (h99 : Y < 0 ∨ 99 < Y)
    (hM : 0 ≤ M ∧ M ≤ 11) (hD : 1 ≤ D ∧ D ≤ monthLength Y M) :
    ∃ t, (newDateYMD h (some Y) (some M) (some D)).tv = some t ∧
      Day (LocalTime h t) = MakeDay Y M D ∧
      YearFromTime (LocalTime h t) = Y ∧ MonthFromTime (LocalTime h t) = M ∧
      DateFromTime (LocalTime h t) = D := by
  have hday : Day (MakeDate (MakeDay Y M D) 0) = MakeDay Y M D :=
    Day_MakeDate _ _ (by decide)
  obtain ⟨fY, fM, fD⟩ := fields_of_MakeDay _ Y M D hM hD hday
  refine ⟨MakeDate (MakeDay Y M D) 0 - h.tza, ?_, ?_⟩
  · have hyr : ¬ (0 ≤ Y ∧ Y ≤ 99) := by omega
    simp only [newDateYMD, if_neg hyr, MakeTime_zero]
    exact TimeClip_UTC h htz _ (by rw [fY]; exact hr)
  · rw [LocalTime_UTC]
    exact ⟨hday, fY, fM, fD⟩

/-- C4 (amended): when the displayed date has a local year `Y` outside 0 to
99 and from -271820 to 275759 (and the host's zone offset is within a day),
`renderCalendar` fills the grid with the 7 header cells, then `w` empty
cells, then one cell per day numbered 1 to `n` in order, where `n` is the
length of month `M` of year `Y` (February of a leap year has 29 days) and
`w` is the weekday (0 = Sunday) of the 1st of that month; the grid has
`7 + w + n` cells and the cell of day `i + 1` is built for the date `Y`,
`M`, `i + 1`. -/
theorem renderCalendar_grid (h : Host) (htz : -msPerDay ≤ h.tza ∧ h.tza ≤ msPerDay)
    (s : State) (Y M : Int) (hY : getFullYear h s.currentDate = some Y)
    (hM : getMonth h s.currentDate = some M)
    (hr : -271820 ≤ Y ∧ Y ≤ 275759) (h99 : Y < 0 ∨ 99 < Y) :
    ∃ w n : Nat,
      (renderCalendar h s).calendarGrid =
        dayNames.map Cell.header ++ List.replicate w Cell.filler ++
          (List.range n).map (fun i =>
            Cell.day (createDayElement h s.entries (some Y) (some M) (Int.ofNat i + 1))) ∧
      dayNames.length = 7 ∧
      (renderCalendar h s).calendarGrid.length = 7 + w + n ∧
      Int.ofNat n = monthLength Y M ∧
      (∃ t, YearFromTime t = Y ∧ MonthFromTime t = M ∧ DateFromTime t = 1) ∧
      (∀ t, YearFromTime t = Y → MonthFromTime t = M → DateFromTime t = 1 →
        WeekDay t = Int.ofNat w) ∧
      (∀ i, i < n →
        (createDayElement h s.entries (some Y) (some M) (Int.ofNat i + 1)).dayNumber =
          Int.ofNat i + 1 ∧
        getFullYear h (createDayElement h s.entries (some Y) (some M) (Int.ofNat i + 1)).date =
          some Y ∧
        getMonth h (createDayElement h s.entries (some Y) (some M) (Int.ofNat i + 1)).date =
          some M ∧
        getDate h (createDayElement h s.entries (some Y) (some M) (Int.ofNat i + 1)).date =
          some (Int.ofNat i + 1)) := by
  obtain ⟨t0, hv0, hM0⟩ : ∃ t0, s.currentDate.tv = some t0 ∧
      MonthFromTime (LocalTime h t0) = M := by
    unfold getMonth at hM
    cases hd : s.currentDate.tv with
    | none => rw [hd] at hM; cases hM
    | some t => rw [hd] at hM; exact ⟨t, rfl, by simpa using hM⟩
  have hMb : 0 ≤ M ∧ M ≤ 11 := by rw [← hM0]; exact (MakeDay_of_fields _).1
  have hlen := monthLength_bounds Y M
  obtain ⟨t1, hv1, hd1, fY1, fM1, fD1⟩ :=
    newDateYMD_fields h htz Y M 1 hr h99 hMb ⟨le_refl _, by omega⟩
  obtain ⟨t2, hv2, hd2, fY2, fM2, fD2⟩ :=
    newDateYMD_fields h htz Y M (monthLength Y M) hr h99 hMb ⟨by omega, le_refl _⟩
  have hlast : newDateYMD h (some Y) (jsAdd (some M) (some 1)) (some 0) =
      newDateYMD h (some Y) (some M) (some (monthLength Y M)) := by
    have hyr : ¬ (0 ≤ Y ∧ Y ≤ 99) := by omega
    simp only [newDateYMD, jsAdd, if_neg hyr, MakeDay_last Y M hMb]
  have hw := WeekDay_bounds (LocalTime h t1)
  have hgrid : gridCells h s.entries s.currentDate =
      dayNames.map Cell.header ++
        List.replicate (WeekDay (LocalTime h t1)).toNat Cell.filler ++
        (List.range (monthLength Y M).toNat).map (fun i =>
          Cell.day (createDayElement h s.entries (some Y) (some M) (Int.ofNat i + 1))) := by
    simp only [gridCells, hY, hM, hlast, getDate, getDay, hv1, hv2, Option.map_some', loopCount,
      fD2]
  refine ⟨(WeekDay (LocalTime h t1)).toNat, (monthLength Y M).toNat, hgrid, rfl, ?_, ?_,
    ⟨_, fY1, fM1, fD1⟩, ?_, ?_⟩
  · show (gridCells h s.entries s.currentDate).length = _
    rw [hgrid]
    simp [dayNames]
    omega
  · simp only [Int.ofNat_eq_coe]
    omega
  · intro t hy hm hd
    have hday : Day t = Day (LocalTime h t1) :=
      Day_eq_of_fields (by rw [hy, fY1]) (by rw [hm, fM1]) (by rw [hd, fD1])
    rw [(fields_congr hday).2.2.2]
    simp only [Int.ofNat_eq_coe]
    omega
  · intro i hi
    have hD : 1 ≤ (Int.ofNat i + 1) ∧ Int.ofNat i + 1 ≤ monthLength Y M := by
      simp only [Int.ofNat_eq_coe]
      omega
    obtain ⟨t3, hv3, -, fY3, fM3, fD3⟩ := newDateYMD_fields h htz Y M _ hr h99 hMb hD
    refine ⟨rfl, ?_, ?_, ?_⟩
    · show getFullYear h (newDateYMD h (some Y) (some M) (some (Int.ofNat i + 1))) = _
      rw [getFullYear, hv3, Option.map_some', fY3]
    · show getMonth h (newDateYMD h (some Y) (some M) (some (Int.ofNat i + 1))) = _
      rw [getMonth, hv3, Option.map_some', fM3]
    · show getDate h (newDateYMD h (some Y) (some M) (some (Int.ofNat i + 1))) = _
      rw [getDate, hv3, Option.map_some', fD3]

/-- C4, an instance: March 2024 on a host one hour east of UTC; the grid has
5 empty cells (1 March 2024 is a Friday) and 31 day cells. -/
theorem renderCalendar_grid_witness :
    (getFullYear cetHost sampleState.currentDate = some 2024 ∧
      getMonth cetHost sampleState.currentDate = some 2) ∧
    (((renderCalendar cetHost sampleState).calendarGrid.filter Cell.isFiller).length = 5 ∧
      ((renderCalendar cetHost sampleState).calendarGrid.filter Cell.isDay).length = 31) ∧
    ∃ w n : Nat,
      (renderCalendar cetHost sampleState).calendarGrid =
        dayNames.map Cell.header ++ List.replicate w Cell.filler ++
          (List.range n).map (fun i =>
            Cell.day (createDayElement cetHost sampleState.entries (some 2024) (some 2)
              (Int.ofNat i + 1))) ∧
      dayNames.length = 7 ∧
      (renderCalendar cetHost sampleState).calendarGrid.length = 7 + w + n ∧
      Int.ofNat n = monthLength 2024 2 ∧
      (∃ t, YearFromTime t = 2024 ∧ MonthFromTime t = 2 ∧ DateFromTime t = 1) ∧
      (∀ t, YearFromTime t = 2024 → MonthFromTime t = 2 → DateFromTime t = 1 →
        WeekDay t = Int.ofNat w) ∧
      (∀ i, i < n →
        (createDayElement cetHost sampleState.entries (some 2024) (some 2)
          (Int.ofNat i + 1)).dayNumber = Int.ofNat i + 1 ∧
        getFullYear cetHost (createDayElement cetHost sampleState.entries (some 2024) (some 2)
          (Int.ofNat i + 1)).date = some 2024 ∧
        getMonth cetHost (createDayElement cetHost sampleState.entries (some 2024) (some 2)
          (Int.ofNat i + 1)).date = some 2 ∧
        getDate cetHost (createDayElement cetHost sampleState.entries (some 2024) (some 2)
          (Int.ofNat i + 1)).date = some (Int.ofNat i + 1)) :=
  ⟨by decide, by decide,
    renderCalendar_grid cetHost (by decide) sampleState 2024 2 (by decide) (by decide)
      (by decide) (by decide)⟩

/-- C4 as stated fails at the end of the range of dates and for a displayed
year from 0 to 99.  With 1 September 275760 displayed (a valid date), the
last day of the month is past the last time value, `daysInMonth` is `NaN`
and the grid has no day cell, while September has 30 days.  With February
of year 0 displayed, the grid is that of February 1900 (4 empty cells, 28
day cells), while 1 February of year 0 is a Tuesday and the month has 29
days. -/
theorem renderCalendar_grid_fails :
    (getFullYear utcHost (JSDate.mk (some 8639998963200000)) = some 275760 ∧
      getMonth utcHost (JSDate.mk (some 8639998963200000)) = some 8 ∧
      monthLength 275760 8 = 30 ∧
      ((renderCalendar utcHost
        { sampleState with currentDate := JSDate.mk (some 8639998963200000) }).calendarGrid.filter
          Cell.isDay).length = 0) ∧
    (getFullYear utcHost (JSDate.mk (some (-62163331200000))) = some 0 ∧
      getMonth utcHost (JSDate.mk (some (-62163331200000))) = some 1 ∧
      monthLength 0 1 = 29 ∧
      (YearFromTime (-62164540800000) = 0 ∧ MonthFromTime (-62164540800000) = 1 ∧
        DateFromTime (-62164540800000) = 1 ∧ WeekDay (-62164540800000) = 2) ∧
      ((renderCalendar utcHost
        { sampleState with currentDate := JSDate.mk (some (-62163331200000)) }).calendarGrid.filter
          Cell.isFiller).length = 4 ∧
      ((renderCalendar utcHost
        { sampleState with currentDate := JSDate.mk (some (-62163331200000)) }).calendarGrid.filter
          Cell.isDay).length = 28) := by
  decide

/-- What `Date.parse` returns for the start of the scenario's entry, in any
zone within a day of UTC. -/
theorem dateParse_entryA (h : Host) (htz : -msPerDay ≤ h.tza ∧ h.tza ≤ msPerDay) :
    ∃ t, dateParse h entryA.start = some t ∧ YearFromTime (LocalTime h t) = 2024 ∧
      MonthFromTime (LocalTime h t) = 2 ∧ DateFromTime (LocalTime h t) = 10 := by
  have hp : parseIsoFields entryA.start.data =
      some ⟨2024, 3, 10, some (9, 0, 0, 0), none⟩ := by decide
  have hday : Day (MakeDate (MakeDay 2024 2 10) (MakeTime 9 0 0 0)) = MakeDay 2024 2 10 :=
    Day_MakeDate _ _ (by decide)
  obtain ⟨fY, fM, fD⟩ := fields_of_MakeDay _ 2024 2 10 (by decide) (by decide) hday
  refine ⟨MakeDate (MakeDay 2024 2 10) (MakeTime 9 0 0 0) - h.tza, ?_, ?_⟩
  · unfold dateParse
    rw [hp]
    have hb : (IsoFields.mk 2024 3 10 (some (9, 0, 0, 0)) none).inBounds = true := by decide
    simp only [IsoFields.timeValue, hb, if_true]
    have e : (3 : Int) - 1 = 2 := rfl
    rw [e]
    exact TimeClip_UTC h htz _ (by rw [fY]; decide)
  · rw [LocalTime_UTC]
    exact ⟨fY, fM, fD⟩

theorem strictEq_some (a b : Int) : strictEq (some a) (some b) = decide (a = b) := by
  by_cases hab : a = b <;> simp [strictEq, hab]

/-- C9: for the day cell `createDayElement` builds, with `n` the number of
cache entries `getEntriesForDay` returns for its date: if `n = 0` the cell has
no indicator and no class `has-events`; if `n ≥ 1` it has the class and an
indicator with `min n 3` dots, followed by the text ` +N` with `N = n - 3`
exactly when `n > 3`.  With the single entry starting 2024-03-10T09:00 in
the cache, the cell of 10 March 2024 has one dot and no text, and the cell
of 11 March has no indicator. -/
theorem dayElement_indicator (h : Host) (entries : List Entry) (year month : Option Int)
    (day : Int) :
    ((getEntriesForDay h entries (newDateYMD h year month (some day))).length = 0 →
      (createDayElement h entries year month day).eventsIndicator = none ∧
      "has-events" ∉ (createDayElement h entries year month day).classes) ∧
    (1 ≤ (getEntriesForDay h entries (newDateYMD h year month (some day))).length →
      "has-events" ∈ (createDayElement h entries year month day).classes ∧
      ∃ children, (createDayElement h entries year month day).eventsIndicator = some children ∧
        children.count IndicatorChild.dot =
          min (getEntriesForDay h entries (newDateYMD h year month (some day))).length 3 ∧
        ((getEntriesForDay h entries (newDateYMD h year month (some day))).length ≤ 3 →
          children = List.replicate
            (getEntriesForDay h entries (newDateYMD h year month (some day))).length
            IndicatorChild.dot) ∧
        (3 < (getEntriesForDay h entries (newDateYMD h year month (some day))).length →
          children = List.replicate 3 IndicatorChild.dot ++
            [IndicatorChild.text (" +" ++ toString
              ((getEntriesForDay h entries (newDateYMD h year month (some day))).length - 3))])) ∧
    ((-msPerDay ≤ h.tza ∧ h.tza ≤ msPerDay) →
      (createDayElement h [entryA] (some 2024) (some 2) 10).eventsIndicator =
        some [IndicatorChild.dot] ∧
      (createDayElement h [entryA] (some 2024) (some 2) 11).eventsIndicator = none) := by
  refine ⟨?_, ?_, ?_⟩
  · intro h0
    have hn : ¬ (0 > 0) := by decide
    simp only [createDayElement, h0, if_neg hn]
    constructor
    · trivial
    · split_ifs <;> decide
  · intro h1
    have hpos : (getEntriesForDay h entries (newDateYMD h year month (some day))).length > 0 :=
      h1
    simp only [createDayElement, hpos, if_true]
    constructor
    · split_ifs <;> simp
    · refine ⟨_, rfl, ?_, ?_, ?_⟩
      · split_ifs with h3
        · rw [List.count_append, List.count_replicate_self]
          simp [List.count_cons]
        · rw [List.count_replicate_self]
      · intro h3
        rw [if_neg (by omega), min_eq_left h3]
      · intro h3
        rw [if_pos h3, min_eq_right (by omega)]
  · intro htz
    obtain ⟨t, hp, fY, fM, fD⟩ := dateParse_entryA h htz
    obtain ⟨t1, hv1, -, gY1, gM1, gD1⟩ :=
      newDateYMD_fields h htz 2024 2 10 (by decide) (by decide) (by decide) (by decide)
    obtain ⟨t2, hv2, -, gY2, gM2, gD2⟩ :=
      newDateYMD_fields h htz 2024 2 11 (by decide) (by decide) (by decide) (by decide)
    have e1 : getEntriesForDay h [entryA] (newDateYMD h (some 2024) (some 2) (some 10)) =
        [entryA] := by
      simp [getEntriesForDay, newDateString, getFullYear, getMonth, getDate, hp, hv1, fY, fM, fD,
        gY1, gM1, gD1, strictEq_some]
    have e2 : getEntriesForDay h [entryA] (newDateYMD h (some 2024) (some 2) (some 11)) =
        [] := by
      simp [getEntriesForDay, newDateString, getFullYear, getMonth, getDate, hp, hv2, fY, fM, fD,
        gY2, gM2, gD2, strictEq_some]
    constructor
    · simp only [createDayElement, e1]
      rfl
    · simp only [createDayElement, e2]
      rfl

/-- C9, an instance: the scenario on a host one hour east of UTC. -/
theorem dayElement_indicator_witness :
    (-msPerDay ≤ cetHost.tza ∧ cetHost.tza ≤ msPerDay) ∧
    (createDayElement cetHost [entryA] (some 2024) (some 2) 10).eventsIndicator =
      some [IndicatorChild.dot] ∧
    (createDayElement cetHost [entryA] (some 2024) (some 2) 11).eventsIndicator = none :=
  ⟨by decide, (dayElement_indicator cetHost [] none none 0).2.2 (by decide)⟩

/-! ### C1: entries of a day -/

/-- The test of `getEntriesForDay` holds exactly when both dates are valid
and lie on the same local calendar day. -/
theorem sameDay_test (h : Host) (a b : JSDate) :
    (strictEq (getFullYear h a) (getFullYear h b) &&
      strictEq (getMonth h a) (getMonth h b) &&
      strictEq (getDate h a) (getDate h b)) =
    decide (localDay h a = localDay h b ∧ (localDay h b).isSome = true) := by
  cases ha : a.tv with
  | none =>
    cases hb : b.tv <;> simp [getFullYear, getMonth, getDate, localDay, strictEq, ha, hb]
  | some t =>
    cases hb : b.tv with
    | none => simp [getFullYear, getMonth, getDate, localDay, strictEq, ha, hb]
    | some u =>
      simp only [getFullYear, getMonth, getDate, localDay, ha, hb, Option.map_some',
        strictEq_some, Option.isSome_some, and_true, Option.some.injEq]
      by_cases hd : Day (LocalTime h t) = Day (LocalTime h u)
      · obtain ⟨e1, e2, e3, -⟩ := fields_congr hd
        simp [hd, e1, e2, e3]
      · have : ¬ (YearFromTime (LocalTime h t) = YearFromTime (LocalTime h u) ∧
            MonthFromTime (LocalTime h t) = MonthFromTime (LocalTime h u) ∧
            DateFromTime (LocalTime h t) = DateFromTime (LocalTime h u)) := by
          rintro ⟨e1, e2, e3⟩
          exact hd (Day_eq_of_fields e1 e2 e3)
        simp only [hd, decide_False]
        by_cases e1 : YearFromTime (LocalTime h t) = YearFromTime (LocalTime h u) <;>
        by_cases e2 : MonthFromTime (LocalTime h t) = MonthFromTime (LocalTime h u) <;>
        by_cases e3 : DateFromTime (LocalTime h t) = DateFromTime (LocalTime h u) <;>
        simp_all

theorem getEntriesForDay_eq_filter (h : Host) (entries : List Entry) (D : JSDate) :
    getEntriesForDay h entries D = entries.filter fun e =>
      decide (localDay h (newDateString h e.start) = localDay h D ∧
        (localDay h D).isSome = true) := by
  unfold getEntriesForDay
  congr 1
  funext e
  exact sameDay_test h _ D

/-- C1: `getEntriesForDay(D)` is a sublist of the cache (relative order
kept); it holds exactly the entries whose start has the year, month and day
of month of `D`, that is, those whose start lies on the local calendar day
of `D`; and it does not depend on the end of an entry nor on the time of day
of a start or of `D`: rewriting every entry by `g` and `D` to `D'` without
changing the calendar days rewrites the result by `g`. -/
theorem getEntriesForDay_spec (h : Host) (entries : List Entry) (D : JSDate) :
    (getEntriesForDay h entries D).Sublist entries ∧
    (∀ e, e ∈ getEntriesForDay h entries D ↔
      e ∈ entries ∧ ∃ y m d : Int,
        (getFullYear h (newDateString h e.start) = some y ∧ getFullYear h D = some y) ∧
        (getMonth h (newDateString h e.start) = some m ∧ getMonth h D = some m) ∧
        (getDate h (newDateString h e.start) = some d ∧ getDate h D = some d)) ∧
    getEntriesForDay h entries D = entries.filter (fun e =>
      decide (localDay h (newDateString h e.start) = localDay h D ∧
        (localDay h D).isSome = true)) ∧
    (∀ (g : Entry → Entry) (D' : JSDate),
      (∀ e ∈ entries, localDay h (newDateString h (g e).start) =
        localDay h (newDateString h e.start)) →
      localDay h D' = localDay h D →
      getEntriesForDay h (entries.map g) D' = (getEntriesForDay h entries D).map g) := by
  refine ⟨?_, ?_, getEntriesForDay_eq_filter h entries D, ?_⟩
  · exact List.filter_sublist _
  · intro e
    unfold getEntriesForDay
    rw [List.mem_filter]
    apply and_congr_right
    intro _
    cases ha : (newDateString h e.start).tv with
    | none => simp [getFullYear, getMonth, getDate, strictEq, ha]
    | some t =>
      cases hb : D.tv with
      | none => simp [getFullYear, getMonth, getDate, strictEq, ha, hb]
      | some u =>
        simp only [getFullYear, getMonth, getDate, ha, hb, Option.map_some', strictEq_some,
          Bool.and_eq_true, decide_eq_true_eq, Option.some.injEq]
        constructor
        · rintro ⟨⟨e1, e2⟩, e3⟩
          exact ⟨_, _, _, ⟨e1, rfl⟩, ⟨e2, rfl⟩, ⟨e3, rfl⟩⟩
        · rintro ⟨y, m, d, ⟨a1, a2⟩, ⟨b1, b2⟩, ⟨c1, c2⟩⟩
          exact ⟨⟨a1.trans a2.symm, b1.trans b2.symm⟩, c1.trans c2.symm⟩
  · intro g D' hg hD
    rw [getEntriesForDay_eq_filter, getEntriesForDay_eq_filter, List.filter_map]
    congr 1
    apply List.filter_congr
    intro e he
    simp only [Function.comp, hg e he, hD]

/-- C1, an instance: moving the start of the entry to 23:30 of the same day,
its end to another year and the date asked for to midnight does not change
the entries returned. -/
theorem getEntriesForDay_spec_witness :
    (∀ e ∈ [entryA], localDay cetHost (newDateString cetHost (shiftWithinDay e).start) =
        localDay cetHost (newDateString cetHost e.start)) ∧
    localDay cetHost (newDateYMD cetHost (some 2024) (some 2) (some 10)) =
      localDay cetHost sampleDate ∧
    getEntriesForDay cetHost ([entryA].map shiftWithinDay)
        (newDateYMD cetHost (some 2024) (some 2) (some 10)) =
      (getEntriesForDay cetHost [entryA] sampleDate).map shiftWithinDay :=
  ⟨by decide, by decide,
    (getEntriesForDay_spec cetHost [entryA] sampleDate).2.2.2 shiftWithinDay
      (newDateYMD cetHost (some 2024) (some 2) (some 10)) (by decide) (by decide)⟩

/-! ### C2, C3: the sorted list -/

theorem startLE_trans (h : Host) (a b c : Entry) (h1 : startLE h a b = true)
    (h2 : startLE h b c = true) : startLE h a c = true := by
  unfold startLE at *
  cases ha : startValue h a <;> cases hb : startValue h b <;> cases hc : startValue h c <;>
    simp_all
  omega

theorem startLE_total (h : Host) (a b : Entry) : (startLE h a b || startLE h b a) = true := by
  unfold startLE
  cases ha : startValue h a <;> cases hb : startValue h b <;> simp
  omega

/-- On entries with valid starts the comparator of the sort orders by start. -/
theorem notAfter_compareStart (h : Host) (a b : Entry) (ha : startValue h a ≠ none)
    (hb : startValue h b ≠ none) : notAfter (compareStart h a b) = startLE h a b := by
  unfold compareStart startLE
  unfold startValue at ha hb
  cases hx : (newDateString h a.start).tv with
  | none => exact absurd hx ha
  | some x =>
    cases hy : (newDateString h b.start).tv with
    | none => exact absurd hy hb
    | some y =>
      simp only [startValue, hx, hy, jsSub, notAfter]
      congr 1
      apply propext
      omega

theorem sortedEntries_eq (h : Host) (entries : List Entry)
    (hvalid : ∀ e ∈ entries, startValue h e ≠ none) :
    sortedEntries h entries = entries.insertionSort (fun a b => startLE h a b = true) := by
  have key := List.map_insertionSort (fun a b => notAfter (compareStart h a b) = true)
    (fun a b => startLE h a b = true) id entries
    (fun a ha b hb => by
      simp only [id, notAfter_compareStart h a b (hvalid a ha) (hvalid b hb)])
  simpa [sortedEntries, arraySort] using key

theorem startLE_sorted (h : Host) (l : List Entry) :
    (l.insertionSort (fun a b => startLE h a b = true)).Pairwise
      (fun a b => startLE h a b = true) := by
  haveI : IsTotal Entry (fun a b => startLE h a b = true) :=
    ⟨fun a b => by simpa using startLE_total h a b⟩
  haveI : IsTrans Entry (fun a b => startLE h a b = true) :=
    ⟨fun a b c => startLE_trans h a b c⟩
  exact List.sorted_insertionSort _ l

theorem startsAscending_iff (h : Host) (l : List Entry)
    (hvalid : ∀ e ∈ l, startValue h e ≠ none) :
    startsAscending h l ↔ l.Pairwise (fun a b => startLE h a b = true) := by
  unfold startsAscending
  induction l with
  | nil => simp
  | cons a l ih =>
    rw [List.pairwise_cons, List.pairwise_cons, ih (fun e he => hvalid e (List.mem_cons_of_mem _ he))]
    apply and_congr_left'
    apply forall_congr'
    intro b
    apply imp_congr_right
    intro hb
    have ha := hvalid a (List.mem_cons_self _ _)
    have hb' := hvalid b (List.mem_cons_of_mem _ hb)
    unfold startLE
    cases hx : startValue h a with
    | none => exact absurd hx ha
    | some x =>
      cases hy : startValue h b with
      | none => exact absurd hy hb'
      | some y => simp

theorem items_entries (h : Host) (l : List Entry) :
    (l.enum.map fun p => createEventItem h p.2 p.1).map EventItem.entry = l := by
  rw [List.map_map]
  have : (EventItem.entry ∘ fun p : Nat × Entry => createEventItem h p.2 p.1) = Prod.snd := by
    funext p
    rfl
  rw [this, List.enum_map_snd]

/-- C3 (amended): for a non-empty cache, `renderEventsList` renders one item per entry
of `sortedEntries`, in that order, and this list is a permutation of the
cache; when the starts all parse to valid dates it is in non-decreasing
order of start and the sort is stable: two entries with the same start keep
their relative order, and so does the whole group of entries starting at any
one instant. -/
theorem renderEventsList_sorted (h : Host) (s : State) (hne : s.entries ≠ []) :
    ∃ items, (renderEventsList h s).eventsList = EventsList.items items ∧
      items.map EventItem.entry = sortedEntries h s.entries ∧
      (items.map EventItem.entry).Perm s.entries ∧
      ((∀ e ∈ s.entries, startValue h e ≠ none) →
        startsAscending h (items.map EventItem.entry) ∧
        (∀ a b, startValue h a = startValue h b → [a, b].Sublist s.entries →
          [a, b].Sublist (items.map EventItem.entry)) ∧
        (∀ x : Int, (items.map EventItem.entry).filter (fun e => startValue h e == some x) =
          s.entries.filter (fun e => startValue h e == some x))) := by
  have hlen : ¬ s.entries.length = 0 := by
    intro h0
    exact hne (List.length_eq_zero.mp h0)
  have hperm : (sortedEntries h s.entries).Perm s.entries := List.perm_insertionSort _ _
  refine ⟨(sortedEntries h s.entries).enum.map fun p => createEventItem h p.2 p.1, ?_, ?_⟩
  · simp only [renderEventsList, eventsListOf, if_neg hlen]
  rw [items_entries]
  refine ⟨rfl, hperm, ?_⟩
  intro hvalid
  have hs := sortedEntries_eq h s.entries hvalid
  have hvalid' : ∀ e ∈ sortedEntries h s.entries, startValue h e ≠ none :=
    fun e he => hvalid e (hperm.mem_iff.mp he)
  have hstable : ∀ c : List Entry, c.Pairwise (fun a b => startLE h a b = true) →
      c.Sublist s.entries → c.Sublist (sortedEntries h s.entries) := by
    intro c hc hsub
    rw [hs]
    exact List.sublist_insertionSort hc hsub
  refine ⟨?_, ?_, ?_⟩
  · rw [startsAscending_iff h _ hvalid', hs]
    exact startLE_sorted h _
  · intro a b hab hsub
    apply hstable _ _ hsub
    have ha : startValue h a ≠ none := hvalid a (hsub.subset (List.mem_cons_self _ _))
    rw [List.pairwise_pair]
    unfold startLE
    rw [← hab]
    cases hx : startValue h a with
    | none => exact absurd hx ha
    | some x => simp
  · intro x
    have hF : (s.entries.filter (fun e => startValue h e == some x)).Pairwise
        (fun a b => startLE h a b = true) := by
      rw [List.pairwise_iff_forall_sublist]
      intro a b hab
      have ha := (List.mem_filter.mp (hab.subset (List.mem_cons_self _ _))).2
      have hb := (List.mem_filter.mp
        (hab.subset (List.mem_cons_of_mem _ (List.mem_singleton_self _)))).2
      simp only [beq_iff_eq] at ha hb
      simp [startLE, ha, hb]
    have hsub := hstable _ hF (List.filter_sublist _)
    have hsub' := hsub.filter (fun e => startValue h e == some x)
    rw [List.filter_filter] at hsub'
    simp only [Bool.and_self] at hsub'
    have hl := (hperm.filter (fun e => startValue h e == some x)).length_eq
    exact (hsub'.eq_of_length hl.symm).symm

/-- C3, an instance: a cache of three entries, the second starting before
the two others, which start at the same instant; the rendered order is the
second, the first, the third. -/
theorem renderEventsList_sorted_witness :
    ({ sampleState with entries := [entryA, entryC, entryB] } : State).entries ≠ [] ∧
    (∀ e ∈ ({ sampleState with entries := [entryA, entryC, entryB] } : State).entries,
      startValue cetHost e ≠ none) ∧
    sortedEntries cetHost [entryA, entryC, entryB] = [entryC, entryA, entryB] ∧
    ∃ items, (renderEventsList cetHost
        { sampleState with entries := [entryA, entryC, entryB] }).eventsList =
        EventsList.items items ∧
      items.map EventItem.entry = sortedEntries cetHost [entryA, entryC, entryB] ∧
      (items.map EventItem.entry).Perm [entryA, entryC, entryB] ∧
      startsAscending cetHost (items.map EventItem.entry) ∧
      (∀ a b, startValue cetHost a = startValue cetHost b →
        [a, b].Sublist [entryA, entryC, entryB] →
        [a, b].Sublist (items.map EventItem.entry)) ∧
      (∀ x : Int,
        (items.map EventItem.entry).filter (fun e => startValue cetHost e == some x) =
        [entryA, entryC, entryB].filter (fun e => startValue cetHost e == some x)) :=
  have hvalid : ∀ e ∈ ({ sampleState with entries := [entryA, entryC, entryB] } : State).entries,
      startValue cetHost e ≠ none := by decide
  have key := renderEventsList_sorted cetHost
    { sampleState with entries := [entryA, entryC, entryB] } (by decide)
  ⟨by decide, hvalid, by decide, key.choose, key.choose_spec.1, key.choose_spec.2.1,
    key.choose_spec.2.2.1, key.choose_spec.2.2.2 hvalid⟩

/-- The cache of an entry of 12 March, an entry whose start is not a date
and an entry of 1 March is not in non-decreasing order of start. -/
theorem lateGarbageEarly_not_ascending :
    ¬ startsAscending utcHost [entryLate, entryGarbage, entryEarly] := by
  intro hasc
  have hrel := (List.pairwise_cons.mp hasc).1 entryEarly
    (List.mem_cons_of_mem _ (List.mem_singleton_self _))
    1710234000000 1709283600000 (by decide) (by decide)
  exact absurd hrel (by decide)

/-- C3 as stated fails for a cache with a start that is not a date: every
comparison with that entry gives `NaN`, which the sort takes for equal, so
the cache of an entry of 12 March, the unparseable entry and an entry of
1 March is rendered in this order, the entry of 12 March before that of
1 March. -/
theorem renderEventsList_unsorted_invalid_start :
    ({ sampleState with entries := [entryLate, entryGarbage, entryEarly] } : State).entries ≠
      [] ∧
    startValue utcHost entryGarbage = none ∧
    (compareStart utcHost entryLate entryGarbage = none ∧
      compareStart utcHost entryGarbage entryEarly = none) ∧
    (renderEventsList utcHost
      { sampleState with entries := [entryLate, entryGarbage, entryEarly] }).eventsList.toList.map
        EventItem.entry = [entryLate, entryGarbage, entryEarly] ∧
    (startValue utcHost entryLate = some 1710234000000 ∧
      startValue utcHost entryEarly = some 1709283600000) ∧
    ¬ startsAscending utcHost ((renderEventsList utcHost
      { sampleState with entries := [entryLate, entryGarbage, entryEarly] }).eventsList.toList.map
        EventItem.entry) := by
  have hlist : (renderEventsList utcHost
      { sampleState with entries := [entryLate, entryGarbage, entryEarly] }).eventsList.toList.map
        EventItem.entry = [entryLate, entryGarbage, entryEarly] := by decide
  refine ⟨by decide, by decide, by decide, hlist, by decide, ?_⟩
  rw [hlist]
  exact lateGarbageEarly_not_ascending

/-- C2 (amended): the argument `renderEventsList` gives `editEntry` and `deleteEntry`
in a rendered item is the position of the item in the sorted list; for a
cache whose starts all parse to valid dates, every rendered item's argument
is the position of the item's own entry in the cache if and only if the cache
is in non-decreasing order of start. -/
theorem rendered_index_correct_iff (h : Host) (entries : List Entry) :
    (∀ (i : Nat) (item : EventItem), (eventsListOf h entries).toList[i]? = some item →
      item.editArg = i ∧ item.deleteArg = i ∧ (sortedEntries h entries)[i]? = some item.entry) ∧
    ((∀ e ∈ entries, startValue h e ≠ none) →
      ((∀ item ∈ (eventsListOf h entries).toList,
          entryAt entries (Int.ofNat item.editArg) = some item.entry ∧
          entryAt entries (Int.ofNat item.deleteArg) = some item.entry) ↔
        startsAscending h entries)) := by
  have hitems : (eventsListOf h entries).toList =
      (sortedEntries h entries).enum.map fun p => createEventItem h p.2 p.1 := by
    unfold eventsListOf
    by_cases h0 : entries.length = 0
    · have : entries = [] := List.length_eq_zero.mp h0
      subst this
      simp [EventsList.toList, sortedEntries, arraySort]
    · rw [if_neg h0]
      rfl
  have hget : ∀ (i : Nat) (item : EventItem), (eventsListOf h entries).toList[i]? = some item →
      item.editArg = i ∧ item.deleteArg = i ∧
        (sortedEntries h entries)[i]? = some item.entry := by
    intro i item hi
    rw [hitems, List.getElem?_map] at hi
    cases hp : (sortedEntries h entries).enum[i]? with
    | none => rw [hp] at hi; cases hi
    | some p =>
      rw [hp] at hi
      simp only [Option.map_some', Option.some.injEq] at hi
      obtain ⟨n, e⟩ := p
      rw [List.enum_eq_enumFrom, List.getElem?_enumFrom] at hp
      cases hq : (sortedEntries h entries)[i]? with
      | none => rw [hq] at hp; cases hp
      | some e' =>
        rw [hq] at hp
        simp only [Option.map_some', Option.some.injEq, Prod.mk.injEq, zero_add] at hp
        obtain ⟨rfl, rfl⟩ := hp
        subst hi
        exact ⟨rfl, rfl, rfl⟩
  refine ⟨hget, ?_⟩
  intro hvalid
  have hs := sortedEntries_eq h entries hvalid
  have hlen : (sortedEntries h entries).length = entries.length := by
    rw [hs]; exact List.length_insertionSort _ _
  have hlen' : (eventsListOf h entries).toList.length = entries.length := by
    rw [hitems, List.length_map, List.enum_length, hlen]
  rw [startsAscending_iff h entries hvalid]
  constructor
  · intro hall
    have heq : sortedEntries h entries = entries := by
      apply List.ext_getElem?
      intro i
      cases hi : (eventsListOf h entries).toList[i]? with
      | none =>
        have h1 : entries.length ≤ i := by
          rw [← hlen']; exact List.getElem?_eq_none_iff.mp hi
        rw [List.getElem?_eq_none_iff.mpr (by omega), List.getElem?_eq_none_iff.mpr h1]
      | some item =>
        obtain ⟨e1, -, e3⟩ := hget i item hi
        have hm := (hall item (List.getElem?_mem hi)).1
        rw [e1] at hm
        simp only [entryAt, Int.ofNat_eq_coe, Int.natCast_nonneg, if_true, Int.toNat_ofNat] at hm
        rw [e3, hm]
    rw [← heq, hs]
    exact startLE_sorted h _
  · intro hsorted item hmem
    have heq : sortedEntries h entries = entries := by
      rw [hs]; exact List.Sorted.insertionSort_eq hsorted
    obtain ⟨i, hi⟩ := List.getElem?_of_mem hmem
    obtain ⟨e1, e2, e3⟩ := hget i item hi
    rw [heq] at e3
    rw [e1, e2]
    simp only [entryAt, Int.ofNat_eq_coe, Int.natCast_nonneg, if_true, Int.toNat_ofNat]
    exact ⟨e3, e3⟩

/-- C2, an instance: a cache of three entries with valid starts, the second
starting before the first; the item rendered first carries the argument 0
and shows `C`, while position 0 of the cache holds `A`. -/
theorem rendered_index_correct_iff_witness :
    (∀ e ∈ [entryA, entryC, entryB], startValue cetHost e ≠ none) ∧
    ((eventsListOf cetHost [entryA, entryC, entryB]).toList.map
        (fun item => (item.editArg, item.deleteArg, item.entry.title)) =
        [(0, 0, "C"), (1, 1, "A"), (2, 2, "B")] ∧
      (entryAt [entryA, entryC, entryB] 0).map Entry.title = some "A") ∧
    ((∀ item ∈ (eventsListOf cetHost [entryA, entryC, entryB]).toList,
        entryAt [entryA, entryC, entryB] (Int.ofNat item.editArg) = some item.entry ∧
        entryAt [entryA, entryC, entryB] (Int.ofNat item.deleteArg) = some item.entry) ↔
      startsAscending cetHost [entryA, entryC, entryB]) :=
  ⟨by decide, by decide,
    (rendered_index_correct_iff cetHost [entryA, entryC, entryB]).2 (by decide)⟩

/-- C2 as stated fails for a cache with a start that is not a date: the
cache of an entry of 12 March, the unparseable entry and an entry of 1 March
is rendered in cache order, so every item's argument is the position of its
own entry in the cache, while the cache is not in non-decreasing order of
start. -/
theorem rendered_index_correct_unsorted :
    startValue utcHost entryGarbage = none ∧
    (eventsListOf utcHost [entryLate, entryGarbage, entryEarly]).toList.map
      (fun item => (item.editArg, item.deleteArg, item.entry.title)) =
      [(0, 0, "L"), (1, 1, "G"), (2, 2, "E")] ∧
    (∀ item ∈ (eventsListOf utcHost [entryLate, entryGarbage, entryEarly]).toList,
      entryAt [entryLate, entryGarbage, entryEarly] (Int.ofNat item.editArg) =
        some item.entry ∧
      entryAt [entryLate, entryGarbage, entryEarly] (Int.ofNat item.deleteArg) =
        some item.entry) ∧
    ¬ startsAscending utcHost [entryLate, entryGarbage, entryEarly] :=
  ⟨by decide, by decide, by decide, lateGarbageEarly_not_ascending⟩

/-! ### C6, C7, C8: requests and state -/

theorem loadEntries_requests (h : Host) (s : State) (o : LoadOutcome) :
    (loadEntries h s o).2.requests = [⟨Method.GET, API_BASE ++ "/entries", none⟩] := by
  cases o <;> rfl

theorem loadEntries_frame (h : Host) (s : State) (o : LoadOutcome) :
    (loadEntries h s o).1.editingIndex = s.editingIndex ∧
    (loadEntries h s o).1.modalShown = s.modalShown ∧
    (loadEntries h s o).1.form = s.form := by
  cases o <;> exact ⟨rfl, rfl, rfl⟩

/-- C6: `saveEntry` issues first one request that carries the entry of the
form: a `POST` to the collection URL when `editingIndex < 0`, a `PUT` to
`entries/p` when `editingIndex` is `p ≥ 0`; every other request of the call
is the `GET` of the reload, so no `PUT` goes to another index.  In state
`Editing(0)` with one entry in the cache the `PUT` goes to `entries/0`. -/
theorem saveEntry_request (h : Host) (s : State) (outcome : Outcome) (reload : LoadOutcome) :
    (s.editingIndex < 0 →
      ∃ rest, (saveEntry h s outcome reload).2.requests =
          ⟨Method.POST, API_BASE ++ "/entries", some (entryOfForm s.form)⟩ :: rest ∧
        ∀ r ∈ rest, r.method = Method.GET) ∧
    (0 ≤ s.editingIndex →
      ∃ rest, (saveEntry h s outcome reload).2.requests =
          ⟨Method.PUT, API_BASE ++ "/entries/" ++ toString s.editingIndex,
            some (entryOfForm s.form)⟩ :: rest ∧
        (∀ r ∈ rest, r.method = Method.GET) ∧
        ∀ r ∈ (saveEntry h s outcome reload).2.requests, r.method = Method.PUT →
          r.url = API_BASE ++ "/entries/" ++ toString s.editingIndex) ∧
    (s.editingIndex = 0 → s.entries.length = 1 →
      (saveEntry h s outcome reload).2.requests.head? =
        some ⟨Method.PUT, "/api/calendar/entries/0", some (entryOfForm s.form)⟩) := by
  have hrest : ∀ s' : State, ∀ r ∈ (loadEntries h s' reload).2.requests,
      r.method = Method.GET := by
    intro s' r hr
    rw [loadEntries_requests] at hr
    rw [List.mem_singleton.mp hr]
  refine ⟨?_, ?_, ?_⟩
  · intro hneg
    have hc : ¬ s.editingIndex ≥ 0 := by omega
    cases outcome
    · exact ⟨(loadEntries h (closeModal (setStatus s "Termin gespeichert")) reload).2.requests,
        by simp only [saveEntry, if_neg hc], hrest _⟩
    · exact ⟨[], by simp only [saveEntry, if_neg hc], by simp⟩
    · exact ⟨[], by simp only [saveEntry, if_neg hc], by simp⟩
  · intro hpos
    have hc : s.editingIndex ≥ 0 := hpos
    cases outcome
    · refine ⟨(loadEntries h (closeModal (setStatus s "Termin gespeichert")) reload).2.requests,
        by simp only [saveEntry, if_pos hc], hrest _, ?_⟩
      intro r hr hm
      simp only [saveEntry, if_pos hc, List.mem_cons] at hr
      rcases hr with rfl | hr
      · rfl
      · rw [hrest _ r hr] at hm; cases hm
    · refine ⟨[], by simp only [saveEntry, if_pos hc], by simp, ?_⟩
      intro r hr _
      simp only [saveEntry, if_pos hc, List.mem_singleton] at hr
      rw [hr]
    · refine ⟨[], by simp only [saveEntry, if_pos hc], by simp, ?_⟩
      intro r hr _
      simp only [saveEntry, if_pos hc, List.mem_singleton] at hr
      rw [hr]
  · intro h0 _
    have hc : s.editingIndex ≥ 0 := by omega
    cases outcome <;> simp only [saveEntry, if_pos hc, h0, List.head?_cons] <;> rfl

/-- C6, an instance: a submit in state `Editing(0)` with one entry in the
cache. -/
theorem saveEntry_request_witness :
    ({ sampleState with editingIndex := 0, modalShown := true } : State).editingIndex = 0 ∧
    ({ sampleState with editingIndex := 0, modalShown := true } : State).entries.length = 1 ∧
    (saveEntry cetHost { sampleState with editingIndex := 0, modalShown := true }
      Outcome.ok (LoadOutcome.ok [entryA])).2.requests.head? =
        some ⟨Method.PUT, "/api/calendar/entries/0",
          some (entryOfForm ({ sampleState with editingIndex := 0, modalShown := true } : State).form)⟩ :=
  ⟨rfl, rfl, (saveEntry_request cetHost { sampleState with editingIndex := 0, modalShown := true }
    Outcome.ok (LoadOutcome.ok [entryA])).2.2 rfl rfl⟩

/-- C7: a failed load, save or delete leaves the cache as it was; a failed
save also leaves `editingIndex`, the open flag of the modal and the form as
they were; a successful save closes the modal, sets `editingIndex` to -1 and
then reloads: it issues the `GET` of the cache, and the cache becomes the
body of a successful answer. -/
theorem failure_keeps_cache (h : Host) (s : State) :
    (∀ o : LoadOutcome, (∀ body, o ≠ LoadOutcome.ok body) →
      (loadEntries h s o).1.entries = s.entries) ∧
    (∀ (o : Outcome) (reload : LoadOutcome), o ≠ Outcome.ok →
      (saveEntry h s o reload).1.entries = s.entries ∧
      (saveEntry h s o reload).1.editingIndex = s.editingIndex ∧
      (saveEntry h s o reload).1.modalShown = s.modalShown ∧
      (saveEntry h s o reload).1.form = s.form) ∧
    (∀ (index : Int) (confirmed : Bool) (o : Outcome) (reload : LoadOutcome), o ≠ Outcome.ok →
      (deleteEntry h s index confirmed o reload).1.entries = s.entries) ∧
    (∀ reload : LoadOutcome,
      (saveEntry h s Outcome.ok reload).1.modalShown = false ∧
      (saveEntry h s Outcome.ok reload).1.editingIndex = -1 ∧
      (saveEntry h s Outcome.ok reload).2.requests.tail =
        [⟨Method.GET, API_BASE ++ "/entries", none⟩] ∧
      (∀ body, reload = LoadOutcome.ok body →
        (saveEntry h s Outcome.ok reload).1.entries = body) ∧
      ((∀ body, reload ≠ LoadOutcome.ok body) →
        (saveEntry h s Outcome.ok reload).1.entries = s.entries)) := by
  refine ⟨?_, ?_, ?_, ?_⟩
  · intro o ho
    cases o with
    | ok body => exact absurd rfl (ho body)
    | okBadJson => rfl
    | notOk => rfl
    | networkError => rfl
  · intro o reload ho
    cases o with
    | ok => exact absurd rfl ho
    | notOk => exact ⟨rfl, rfl, rfl, rfl⟩
    | networkError => exact ⟨rfl, rfl, rfl, rfl⟩
  · intro index confirmed o reload ho
    cases confirmed <;> cases o with
    | ok => exact absurd rfl ho
    | notOk => rfl
    | networkError => rfl
  · intro reload
    cases reload with
    | ok body => exact ⟨rfl, rfl, rfl, (fun b hb => by cases hb; rfl), fun hb => absurd rfl (hb body)⟩
    | okBadJson => exact ⟨rfl, rfl, rfl, (fun b hb => by cases hb), fun _ => rfl⟩
    | notOk => exact ⟨rfl, rfl, rfl, (fun b hb => by cases hb), fun _ => rfl⟩
    | networkError => exact ⟨rfl, rfl, rfl, (fun b hb => by cases hb), fun _ => rfl⟩

/-- C7, an instance: a save answered with a non-success status while editing
entry 0. -/
theorem failure_keeps_cache_witness :
    Outcome.notOk ≠ Outcome.ok ∧
    (saveEntry cetHost { sampleState with editingIndex := 0, modalShown := true }
        Outcome.notOk LoadOutcome.notOk).1.entries = [entryA] ∧
    (saveEntry cetHost { sampleState with editingIndex := 0, modalShown := true }
        Outcome.notOk LoadOutcome.notOk).1.editingIndex = 0 ∧
    (saveEntry cetHost { sampleState with editingIndex := 0, modalShown := true }
        Outcome.notOk LoadOutcome.notOk).1.modalShown = true ∧
    (saveEntry cetHost { sampleState with editingIndex := 0, modalShown := true }
        Outcome.notOk LoadOutcome.notOk).1.form = Form.reset :=
  ⟨by decide, (failure_keeps_cache cetHost
    { sampleState with editingIndex := 0, modalShown := true }).2.1
      Outcome.notOk LoadOutcome.notOk (by decide)⟩

/-- C8 (amended): for a position `p` at or past the end of the cache, the
client does not check `p`: `deleteEntry(p)` issues no request when the user
declines the confirmation and otherwise issues first one `DELETE` to
`entries/p` (any other request is the `GET` of the reload); `editEntry(p)`
sets `editingIndex` to `p` and then throws, leaving the cache, the form and
the open flag of the modal as they were; a submit in the state it leaves
issues a `PUT` to `entries/p`. -/
theorem stale_position_unchecked (h : Host) (s : State) (p : Int)
    (hp : Int.ofNat s.entries.length ≤ p) :
    (∀ o reload, deleteEntry h s p false o reload = (s, ⟨[], [], false⟩)) ∧
    (∀ o reload, ∃ rest, (deleteEntry h s p true o reload).2.requests =
        ⟨Method.DELETE, API_BASE ++ "/entries/" ++ toString p, none⟩ :: rest ∧
      ∀ r ∈ rest, r.method = Method.GET) ∧
    ((editEntry h s p).2.threw = true ∧
      (editEntry h s p).1.editingIndex = p ∧
      (editEntry h s p).1.entries = s.entries ∧
      (editEntry h s p).1.form = s.form ∧
      (editEntry h s p).1.modalShown = s.modalShown) ∧
    (∀ o reload, (saveEntry h (editEntry h s p).1 o reload).2.requests.head? =
      some ⟨Method.PUT, API_BASE ++ "/entries/" ++ toString p,
        some (entryOfForm s.form)⟩) := by
  have hundef : entryAt s.entries p = none := by
    unfold entryAt
    have h0 : 0 ≤ p := le_trans (Int.ofNat_nonneg _) hp
    rw [if_pos h0]
    apply List.getElem?_eq_none_iff.mpr
    have : Int.ofNat s.entries.length ≤ Int.ofNat p.toNat := by
      rw [Int.ofNat_eq_coe, Int.ofNat_eq_coe, Int.toNat_of_nonneg h0]
      exact hp
    exact Int.ofNat_le.mp this
  have hedit : editEntry h s p =
      ({ s with editingIndex := p, modalTitle := "Termin bearbeiten" }, ⟨[], [], true⟩) := by
    unfold editEntry
    simp only [hundef]
  refine ⟨?_, ?_, ?_, ?_⟩
  · intro o reload
    rfl
  · intro o reload
    cases o
    · refine ⟨(loadEntries h (setStatus s "Termin gelöscht") reload).2.requests, rfl, ?_⟩
      intro r hr
      rw [loadEntries_requests] at hr
      rw [List.mem_singleton.mp hr]
    · exact ⟨[], rfl, by simp⟩
    · exact ⟨[], rfl, by simp⟩
  · rw [hedit]
    exact ⟨rfl, rfl, rfl, rfl, rfl⟩
  · intro o reload
    rw [hedit]
    have hc : p ≥ 0 := le_trans (Int.ofNat_nonneg _) hp
    cases o <;> simp only [saveEntry, if_pos hc, List.head?_cons]

/-- C8, an instance: position 2 with two entries in the cache. -/
theorem stale_position_unchecked_witness :
    Int.ofNat ({ sampleState with entries := [entryA, entryB] } : State).entries.length ≤ 2 ∧
    (∀ o reload, ∃ rest,
      (deleteEntry cetHost { sampleState with entries := [entryA, entryB] } 2 true o
        reload).2.requests =
        ⟨Method.DELETE, API_BASE ++ "/entries/" ++ toString (2 : Int), none⟩ :: rest ∧
      ∀ r ∈ rest, r.method = Method.GET) :=
  ⟨by decide, (stale_position_unchecked cetHost { sampleState with entries := [entryA, entryB] }
    2 (by decide)).2.1⟩

/-- C8 as stated fails: with two entries in the cache, a confirmed
`deleteEntry(2)` issues a `DELETE` to `entries/2`, and `editEntry(2)` on an
open modal leaves `editingIndex` at 2 with the modal open, from where a
submit issues a `PUT` to `entries/2`. -/
theorem stale_position_not_rejected :
    ({ sampleState with entries := [entryA, entryB] } : State).entries.length = 2 ∧
    (deleteEntry utcHost { sampleState with entries := [entryA, entryB] } 2 true
      Outcome.notOk LoadOutcome.notOk).2.requests =
        [⟨Method.DELETE, "/api/calendar/entries/2", none⟩] ∧
    (editEntry utcHost { sampleState with entries := [entryA, entryB], modalShown := true }
      2).1.editingIndex = 2 ∧
    (editEntry utcHost { sampleState with entries := [entryA, entryB], modalShown := true }
      2).1.modalShown = true ∧
    ((saveEntry utcHost
      (editEntry utcHost { sampleState with entries := [entryA, entryB], modalShown := true }
        2).1 Outcome.notOk LoadOutcome.notOk).2.requests.map fun r => (r.method, r.url)) =
        [(Method.PUT, "/api/calendar/entries/2")] := by
  decide

end Calendar
